import Mathlib

/-!
Verification of the multi_format_parser repository: a shallow embedding of
the type-casting, formula-interpolation, JSON-path, fixed-width extraction
and row-pipeline code, with theorems settling the frozen claims.

Python machine model used throughout:
* Python exceptions are modelled with an explicit `PyExc` channel
  (`Except PyExc _`); code regions wrapped by `try/except` in the source
  are modelled by matching on that channel and catching exactly the
  exception classes the source names.
* Python `str` is a Lean `String`; `str.strip()` is `pyStrip` over the
  ASCII whitespace set Python strips for the data of these claims.
* `decimal.Decimal` is the type `Dec` (finite coefficient/exponent pairs
  plus infinities and NaNs, as in the decimal module).  Underscore
  grouping in numeric literals is not modelled (no claim depends on it).
* Python `float` objects are carried as their source literal
  (`Value.float lit`); IEEE semantics of the value are not inspected by
  any claim, only whether `float(s)` raises.
* `dict` rows are association lists with first-match lookup and
  overwrite-on-assignment, matching unique-key dict behaviour.
-/

namespace MFP

/-- Characters Python's `str.strip()` removes (ASCII whitespace). -/
def isPyWs (c : Char) : Bool :=
  c = ' ' || c = '\t' || c = '\n' || c = '\r' || c = '\x0b' || c = '\x0c'

/-- Python `s.strip()` on a char list. -/
def stripChars (cs : List Char) : List Char :=
  ((cs.dropWhile isPyWs).reverse.dropWhile isPyWs).reverse

/-- Python `s.strip()`. -/
def pyStrip (s : String) : String :=
  String.mk (stripChars s.data)

/-- Render a natural number in decimal (helper for `str(int)`). -/
def natDigits (n : Nat) : List Char :=
  (Nat.toDigits 10 n)

/-- Python `str` of an `int`. -/
def intStr (n : Int) : String :=
  if n < 0 then String.mk ('-' :: natDigits n.natAbs) else String.mk (natDigits n.natAbs)

/-- `decimal.Decimal` values: finite values are a sign, a coefficient and a
base-10 exponent (trailing zeros of the literal are kept in the
coefficient, as in the decimal module); plus infinities and NaNs. -/
inductive Dec where
  | fin (neg : Bool) (mant : Nat) (exp : Int)
  | inf (neg : Bool)
  | qnan
  | snan
deriving DecidableEq, Repr

/-- Python exception classes that the casting code can raise. -/
inductive PyExc where
  | valueError (msg : String)
  | invalidOperation
  | overflowError
  | indexError
  | xpathEvalError
deriving DecidableEq, Repr

/-- `s.lower()` (ASCII). -/
def pyLower (s : String) : String := String.mk (s.data.map Char.toLower)

def isDigitChar (c : Char) : Bool := '0' ≤ c ∧ c ≤ '9'

def digitsToNat (cs : List Char) : Nat :=
  cs.foldl (fun acc c => acc * 10 + (c.toNat - '0'.toNat)) 0

/-- Parse an optional sign; returns (negative?, rest). -/
def takeSign (cs : List Char) : Bool × List Char :=
  match cs with
  | '+' :: rest => (false, rest)
  | '-' :: rest => (true, rest)
  | _ => (false, cs)

/-- Grammar of the numeric part accepted by `Decimal(...)`:
`digits [. digits?] | . digits`, then an optional `[eE] sign? digits`
exponent.  Returns coefficient and exponent. -/
def decNumParse (cs : List Char) : Option (Nat × Int) :=
  let intPart := cs.takeWhile isDigitChar
  let rest1 := cs.dropWhile isDigitChar
  match rest1 with
  | '.' :: rest2 =>
    let fracPart := rest2.takeWhile isDigitChar
    let rest3 := rest2.dropWhile isDigitChar
    if intPart.isEmpty ∧ fracPart.isEmpty then none
    else
      let mant := digitsToNat (intPart ++ fracPart)
      let exp0 : Int := -(fracPart.length : Int)
      match rest3 with
      | [] => some (mant, exp0)
      | e :: rest4 =>
        if e = 'e' ∨ e = 'E' then
          let (eneg, rest5) := takeSign rest4
          let eDigits := rest5.takeWhile isDigitChar
          let rest6 := rest5.dropWhile isDigitChar
          if eDigits.isEmpty ∨ ¬ rest6.isEmpty then none
          else
            let ev : Int := if eneg then -(digitsToNat eDigits : Int) else (digitsToNat eDigits : Int)
            some (mant, exp0 + ev)
        else none
  | [] =>
    if intPart.isEmpty then none else some (digitsToNat intPart, 0)
  | e :: rest4 =>
    if intPart.isEmpty then none
    else if e = 'e' ∨ e = 'E' then
      let (eneg, rest5) := takeSign rest4
      let eDigits := rest5.takeWhile isDigitChar
      let rest6 := rest5.dropWhile isDigitChar
      if eDigits.isEmpty ∨ ¬ rest6.isEmpty then none
      else
        let ev : Int := if eneg then -(digitsToNat eDigits : Int) else (digitsToNat eDigits : Int)
        some (digitsToNat intPart, ev)
    else none

/-- `decimal.Decimal(s)` on an already-stripped string: numeric literals,
`Infinity`/`Inf`, `NaN`, `sNaN` (case-insensitive, optional sign; NaN
payload digits allowed).  `none` models raising `InvalidOperation`. -/
def pyDecimalParse (s : String) : Option Dec :=
  let (neg, rest) := takeSign s.data
  let low := String.mk (rest.map Char.toLower)
  if low = "infinity" ∨ low = "inf" then some (Dec.inf neg)
  else if low = "nan" ∨ (low.data.take 3 = "nan".data ∧ (low.data.drop 3).all isDigitChar ∧ (low.data.drop 3) ≠ []) then
    some Dec.qnan
  else if low = "snan" ∨ (low.data.take 4 = "snan".data ∧ (low.data.drop 4).all isDigitChar ∧ (low.data.drop 4) ≠ []) then
    some Dec.snan
  else
    match decNumParse rest with
    | some (mant, exp) => some (Dec.fin neg mant exp)
    | none => none

/-- `int(d)` for a `Decimal d`: truncation toward zero for finite values;
`OverflowError` for infinities; `ValueError` for NaNs (as in
`Decimal.__int__`). -/
def intOfDec : Dec → Except PyExc Int
  | Dec.fin neg mant exp =>
    let mag : Nat :=
      if 0 ≤ exp then mant * 10 ^ exp.toNat else mant / 10 ^ (-exp).toNat
    Except.ok (if neg then -(mag : Int) else (mag : Int))
  | Dec.inf _ => Except.error PyExc.overflowError
  | Dec.qnan => Except.error (PyExc.valueError "cannot convert NaN to integer")
  | Dec.snan => Except.error (PyExc.valueError "cannot convert signaling NaN to integer")

/-- Grammar accepted by Python `float(s)` on a stripped string:
`sign? (digits [. digits?] | . digits) ([eE] sign? digits)?` or the
special forms `inf`/`infinity`/`nan` (case-insensitive, optional sign). -/
def isFloatLit (s : String) : Bool :=
  let (_, rest) := takeSign s.data
  let low := String.mk (rest.map Char.toLower)
  if low = "inf" ∨ low = "infinity" ∨ low = "nan" then true
  else (decNumParse rest).isSome

/-- Typed output values produced by `cast_value` and carried in rows. -/
inductive Value where
  | null
  | str (s : String)
  | int (n : Int)
  | dec (d : Dec)
  | float (lit : String)
  | bool (b : Bool)
deriving DecidableEq, Repr

/-- Inputs that can reach `cast_value`: `None`, text, numbers, booleans,
lxml elements (whose `.text` is carried), or lists of such values as
returned by the extractors. -/
inductive CastIn where
  | null
  | text (s : String)
  | intv (n : Int)
  | floatv (lit : String)
  | boolv (b : Bool)
  | elem (text : Option String)
  | listv (vs : List CastIn)

mutual
/-- Python `repr` of a value, used by `str(list)for list inputs; string
quote escaping is not modelled (never reached by the claims). -/
def pyRepr : CastIn → String
  | CastIn.null => "None"
  | CastIn.text s => "'" ++ s ++ "'"
  | CastIn.intv n => intStr n
  | CastIn.floatv lit => lit
  | CastIn.boolv b => if b then "True" else "False"
  | CastIn.elem _ => "<Element>"
  | CastIn.listv vs => "[" ++ String.intercalate ", " (pyReprList vs) ++ "]"

def pyReprList : List CastIn → List String
  | [] => []
  | v :: rest => pyRepr v :: pyReprList rest
end

/-- `safe_text(value)` (casting.py:22-43): `None` for null; `str/int/float/bool`
go through `str(value).strip()`, empty becoming `None`; lxml elements return
`text.strip() if text else None`; anything else is `str(value).strip() or None`. -/
def safe_text : CastIn → Option String
  | CastIn.null => none
  | CastIn.text s => let t := pyStrip s; if t = "" then none else some t
  | CastIn.intv n => let t := pyStrip (intStr n); if t = "" then none else some t
  | CastIn.floatv lit => let t := pyStrip lit; if t = "" then none else some t
  | CastIn.boolv b => some (if b then "True" else "False")
  | CastIn.elem t =>
    match t with
    | none => none
    | some txt => if txt = "" then none else some (pyStrip txt)
  | CastIn.listv vs => let t := pyStrip (pyRepr (CastIn.listv vs)); if t = "" then none else some t

/-- `^\d{4}-\d{2}-\d{2}$` (full match on the stripped text). -/
def dateMatch (s : String) : Bool :=
  match s.data with
  | [a, b, c, d, h1, e, f, h2, g, h] =>
    isDigitChar a ∧ isDigitChar b ∧ isDigitChar c ∧ isDigitChar d ∧
    h1 = '-' ∧ isDigitChar e ∧ isDigitChar f ∧ h2 = '-' ∧ isDigitChar g ∧ isDigitChar h
  | _ => false

/-- `re.match(r'^\d{4}-\d{2}-\d{2}[T ]\d{2}:\d{2}:\d{2}', s)`: a prefix match. -/
def datetimeMatch (s : String) : Bool :=
  match s.data.take 19 with
  | [a, b, c, d, h1, e, f, h2, g, h, sep, i1, i2, c1, j1, j2, c2, k1, k2] =>
    isDigitChar a ∧ isDigitChar b ∧ isDigitChar c ∧ isDigitChar d ∧
    h1 = '-' ∧ isDigitChar e ∧ isDigitChar f ∧ h2 = '-' ∧ isDigitChar g ∧ isDigitChar h ∧
    (sep = 'T' ∨ sep = ' ') ∧
    isDigitChar i1 ∧ isDigitChar i2 ∧ c1 = ':' ∧
    isDigitChar j1 ∧ isDigitChar j2 ∧ c2 = ':' ∧
    isDigitChar k1 ∧ isDigitChar k2
  | _ => false

/-- The body of the `try` block in `cast_value` (casting.py:83-114), on the
non-empty stripped text `s` and the (non-empty) type name `typ`. -/
def castBody (s : String) (typ : String) : Except PyExc Value :=
  let t := pyLower typ
  if t = "string" then Except.ok (Value.str s)
  else if t = "int" then
    match pyDecimalParse s with
    | some d => (intOfDec d).map Value.int
    | none => Except.error PyExc.invalidOperation
  else if t = "decimal" ∨ t = "number" then
    match pyDecimalParse s with
    | some d => Except.ok (Value.dec d)
    | none => Except.error PyExc.invalidOperation
  else if t = "float" then
    if isFloatLit s then Except.ok (Value.float s)
    else Except.error (PyExc.valueError ("could not convert string to float: " ++ s))
  else if t = "boolean" ∨ t = "bool" then
    let ls := pyLower s
    if ls = "true" ∨ ls = "yes" ∨ ls = "1" ∨ ls = "t" ∨ ls = "y" then Except.ok (Value.bool true)
    else if ls = "false" ∨ ls = "no" ∨ ls = "0" ∨ ls = "f" ∨ ls = "n" then Except.ok (Value.bool false)
    else Except.error (PyExc.valueError ("Cannot convert to boolean"))
  else if t = "date" then
    if dateMatch s then Except.ok (Value.str s)
    else Except.error (PyExc.valueError ("Invalid date format"))
  else if t = "datetime" then
    if datetimeMatch s then Except.ok (Value.str s)
    else Except.error (PyExc.valueError ("Invalid datetime format"))
  else
    -- unknown type: log a warning and return the text as a string
    Except.ok (Value.str s)

/-- Exception classes caught by `except (ValueError, InvalidOperation)`. -/
def caughtByCast : PyExc → Bool
  | PyExc.valueError _ => true
  | PyExc.invalidOperation => true
  | _ => false

/-- `cast_value(value, typ, safe_mode)` (casting.py:46-118): null stays null,
a list is replaced by its first element (or null), `safe_text` trims and
nulls empty text, then the typed branch runs; `ValueError`/`InvalidOperation`
are caught - returning null in safe mode or re-raising `ValueError` in
strict mode - while any other exception escapes both modes. -/
def cast_value (value : CastIn) (typ : String) (safeMode : Bool) : Except PyExc Value :=
  match value with
  | CastIn.null => Except.ok Value.null
  | _ =>
    let v1 :=
      match value with
      | CastIn.listv vs =>
        match vs with
        | [] => CastIn.null
        | x :: _ => x
      | v => v
    match safe_text v1 with
    | none => Except.ok Value.null
    | some s =>
      let ty := if typ = "" then "string" else typ
      match castBody s ty with
      | Except.ok v => Except.ok v
      | Except.error e =>
        if caughtByCast e then
          if safeMode then Except.ok Value.null
          else Except.error (PyExc.valueError ("Failed to cast '" ++ s ++ "' to " ++ ty))
        else Except.error e

/-! ## Field validation (validators.py) -/

/-- Result of Python `float(value)` used for range comparison. -/
inductive PyNum where
  | fin (q : Rat)
  | pinf
  | ninf
  | nan
deriving DecidableEq

/-- Rational value of a finite decimal literal `(neg, mant, exp)`. -/
def decRat (neg : Bool) (mant : Nat) (exp : Int) : Rat :=
  let mag : Rat :=
    if 0 ≤ exp then (mant : Rat) * (10 : Rat) ^ exp.toNat
    else (mant : Rat) / (10 : Rat) ^ (-exp).toNat
  if neg then -mag else mag

/-- Parse a stripped float literal into a `PyNum` (caller guarantees the
literal is valid). -/
def pyNumOfLit (s : String) : Option PyNum :=
  let (neg, rest) := takeSign s.data
  let low := String.mk (rest.map Char.toLower)
  if low = "inf" ∨ low = "infinity" then some (if neg then PyNum.ninf else PyNum.pinf)
  else if low = "nan" then some PyNum.nan
  else
    match decNumParse rest with
    | some (mant, exp) => some (PyNum.fin (decRat neg mant exp))
    | none => none

/-- `float(value)` for a row value; `none` models the
`ValueError`/`TypeError` that the validator catches.  IEEE rounding is not
modelled: comparisons are exact over the rationals. -/
def pyFloatOf : Value → Option PyNum
  | Value.null => none
  | Value.str s => pyNumOfLit (pyStrip s)
  | Value.int n => some (PyNum.fin (n : Rat))
  | Value.dec (Dec.fin neg mant exp) => some (PyNum.fin (decRat neg mant exp))
  | Value.dec (Dec.inf neg) => some (if neg then PyNum.ninf else PyNum.pinf)
  | Value.dec Dec.qnan => some PyNum.nan
  | Value.dec Dec.snan => none
  | Value.float lit => pyNumOfLit (pyStrip lit)
  | Value.bool b => some (PyNum.fin (if b then 1 else 0))

/-- `num_val < m` with IEEE special-value ordering (NaN compares false). -/
def pnLt (v : PyNum) (m : Rat) : Bool :=
  match v with
  | PyNum.fin q => q < m
  | PyNum.pinf => false
  | PyNum.ninf => true
  | PyNum.nan => false

/-- `num_val > m` with IEEE special-value ordering (NaN compares false). -/
def pnGt (v : PyNum) (m : Rat) : Bool :=
  match v with
  | PyNum.fin q => m < q
  | PyNum.pinf => true
  | PyNum.ninf => false
  | PyNum.nan => false

/-- `FieldDef` (models.py), restricted to the members the validator and
pipeline read.  `re.fullmatch` with the configured pattern is modelled as
the Boolean predicate `regex` on the value. -/
structure FieldDef where
  name : String
  type : String := "string"
  nullable : Bool := true
  regex : Option (String → Bool) := none
  min_value : Option Rat := none
  max_value : Option Rat := none

/-- `validate_field_value(value, field)` (validators.py:12-40). -/
def validate_field_value (value : Value) (field : FieldDef) : Bool × Option String :=
  if value = Value.null ∨ value = Value.str "" then
    if ¬ field.nullable then (false, some ("Field '" ++ field.name ++ "' cannot be null"))
    else (true, none)
  else
    let regexFail :=
      match field.regex, value with
      | some p, Value.str s => ! p s
      | _, _ => false
    if regexFail then
      (false, some ("Field '" ++ field.name ++ "' failed regex validation"))
    else if field.min_value.isSome ∨ field.max_value.isSome then
      match pyFloatOf value with
      | none => (false, some ("Field '" ++ field.name ++ "' cannot be converted to number for range validation"))
      | some nv =>
        match field.min_value with
        | some m =>
          if pnLt nv m then (false, some ("Field '" ++ field.name ++ "' value below minimum"))
          else
            match field.max_value with
            | some mx =>
              if pnGt nv mx then (false, some ("Field '" ++ field.name ++ "' value above maximum"))
              else (true, none)
            | none => (true, none)
        | none =>
          match field.max_value with
          | some mx =>
            if pnGt nv mx then (false, some ("Field '" ++ field.name ++ "' value above maximum"))
            else (true, none)
          | none => (true, none)
    else (true, none)

/-! ## Rows, stats, writer and the shared row pipeline (base_parser.py)

File IO of `CSVWriter` is modelled as the lists of accepted and rejected
rows it is handed; the separate `self.stats` success-counter dict of
`validate_and_write_row` is not tracked (no claim reads it). -/

/-- A row: mapping from output column name to typed value (dict with
unique keys; assignment overwrites the existing binding). -/
abbrev Row := List (String × Value)

/-- `row.get(name)`: `None` when missing. -/
def rowGet (row : Row) (name : String) : Value :=
  match List.lookup name row with
  | some v => v
  | none => Value.null

/-- `row[name] = v` (dict assignment: overwrite or append). -/
def rowSet (row : Row) (name : String) (v : Value) : Row :=
  match row with
  | [] => [(name, v)]
  | (k, w) :: rest => if k = name then (k, v) :: rest else (k, w) :: rowSet rest name v

/-- `ParsingStats` (models.py:44-54); the timing members are not modelled
(no claim reads them). -/
structure ParsingStats where
  total_rows : Nat := 0
  success_rows : Nat := 0
  failed_rows : Nat := 0
  skipped_rows : Nat := 0
  validation_errors : Nat := 0
  file_parse_failures : Nat := 0
deriving DecidableEq, Repr

def ParsingStats.zero : ParsingStats := {}

/-- The `record_stats` dict: per-record-name statistics. -/
abbrev StatsMap := String → ParsingStats

def statsUpdate (st : StatsMap) (name : String) (f : ParsingStats → ParsingStats) : StatsMap :=
  fun n => if n = name then f (st n) else st n

def zeroStats : StatsMap := fun _ => ParsingStats.zero

/-- Output sink model: accepted rows and rejected rows with their reasons. -/
structure Writer where
  accepted : List (String × Row) := []
  rejected : List (String × Row × String) := []
deriving Repr

/-- The per-field step of `validate_and_write_row`'s validation loop
(base_parser.py:173-179): collect the error message and bump
`validation_errors` when a field fails. -/
def vawrStep (recordName : String) (row : Row)
    (acc : List String × StatsMap) (fd : FieldDef) : List String × StatsMap :=
  let value := rowGet row fd.name
  let r := validate_field_value value fd
  if r.1 then acc
  else (acc.1 ++ [(r.2.getD "")],
        statsUpdate acc.2 recordName (fun p => { p with validation_errors := p.validation_errors + 1 }))

/-- `BaseParser.validate_and_write_row` (base_parser.py:157-195): validate
every field definition, bump `validation_errors` per failing field, then
either bump `failed_rows` and write the rejected row with a
semicolon-joined summary, or bump `success_rows` and write the row. -/
def validate_and_write_row (recordName : String) (row : Row)
    (fieldDefs : List FieldDef) (st : StatsMap) (w : Writer) :
    (StatsMap × Writer) × Bool :=
  let res := fieldDefs.foldl (vawrStep recordName row) ([], st)
  if res.1 ≠ [] then
    ((statsUpdate res.2 recordName (fun p => { p with failed_rows := p.failed_rows + 1 }),
      { w with rejected := w.rejected ++ [(recordName, row, String.intercalate "; " res.1)] }),
     false)
  else
    ((statsUpdate res.2 recordName (fun p => { p with success_rows := p.success_rows + 1 }),
      { w with accepted := w.accepted ++ [(recordName, row)] }),
     true)

/-- `BaseParser.handle_row_error` (base_parser.py:208-225): bump
`skipped_rows`, then re-raise unless `continueOnError`; the carried
`Option String` is the propagating exception. -/
def handle_row_error (recordName : String) (err : String) (continueOnError : Bool)
    (st : StatsMap) : StatsMap × Option String :=
  (statsUpdate st recordName (fun p => { p with skipped_rows := p.skipped_rows + 1 }),
   if continueOnError then none else some err)

/-- `BaseParser.handle_file_error` (base_parser.py:227-251): with
`ignoreBrokenFiles` bump `file_parse_failures` for every tracked record and
report `(False, msg)`; otherwise re-raise. -/
def handle_file_error (recordNames : List String) (err : String)
    (ignoreBroken : Bool) (st : StatsMap) : StatsMap × Except String (Bool × Option String) :=
  if ignoreBroken then
    (recordNames.foldl
       (fun m name => statsUpdate m name (fun p => { p with file_parse_failures := p.file_parse_failures + 1 }))
       st,
     Except.ok (false, some err))
  else (st, Except.error err)

/-! ## CSV parser row loop (csv_parser.py:83-173) -/

/-- The per-record data `parse_csv` prepares before the row loop. -/
structure CsvRecInfo where
  name : String
  fieldDefs : List FieldDef
  columns : List String := []

/-- A physical CSV row is its list of cells. -/
abbrev CsvRow := List String

/-- Rows that are skipped before reaching the pipeline
(csv_parser.py:90-98): empty, or all cells empty/whitespace. -/
def isBlankCsvRow (cells : CsvRow) : Bool :=
  match cells with
  | [] => true
  | _ => cells.all (fun cell => cell = "" ∨ pyStrip cell = "")

/-- One non-blank CSV row through the record loop (csv_parser.py:100-173).
`extract` stands for the context/field/computed extraction block
(lines 111-157) for a record on this row; an `Except.error` is any
exception raised there.  The loop `break`s unconditionally after the first
record - in the success arm (line 168) and in the `except` arm (line 173) -
so only the head record is ever applied.  The result's `Option String` is
an exception propagating out of the row (when `handle_row_error`
re-raises under `continueOnError = false`). -/
def processCsvRow (recs : List CsvRecInfo)
    (extract : CsvRecInfo → CsvRow → Except String Row)
    (cells : CsvRow) (continueOnError : Bool)
    (st : StatsMap) (w : Writer) : (StatsMap × Writer) × Option String :=
  if isBlankCsvRow cells then ((st, w), none)
  else
    match recs with
    | [] => ((st, w), none)
    | r :: _ =>
      match extract r cells with
      | Except.ok row =>
        let st1 := statsUpdate st r.name (fun p => { p with total_rows := p.total_rows + 1 })
        let res := validate_and_write_row r.name row r.fieldDefs st1 w
        (res.1, none)
      | Except.error e =>
        let res := handle_row_error r.name e continueOnError st
        ((res.1, w), res.2)

/-- The CSV row loop over a whole file: rows are processed in order; the
loop aborts when a row error propagates (continueOnError = false), the
stats mutated so far remaining visible. -/
def runCsvRows (recs : List CsvRecInfo)
    (extract : CsvRecInfo → CsvRow → Except String Row)
    (rows : List CsvRow) (continueOnError : Bool)
    (st : StatsMap) (w : Writer) : (StatsMap × Writer) × Option String :=
  match rows with
  | [] => ((st, w), none)
  | cells :: rest =>
    match processCsvRow recs extract cells continueOnError st w with
    | ((st1, w1), none) => runCsvRows recs extract rest continueOnError st1 w1
    | ((st1, w1), some e) => ((st1, w1), some e)

/-! ## Fixed-width extraction (fixed_width_parser.py:160-190) -/

/-- Python `line[a:b]` for `0 ≤ a` (slices never raise). -/
def pySlice (line : String) (a b : Nat) : String :=
  String.mk ((line.data.drop a).take (b - a))

/-- Lines 170-184: `None` when `start` is past the end of the line,
otherwise the slice clamped to the line length, stripped. -/
def fw_extract (line : String) (start endPos : Nat) : Option String :=
  if start ≥ line.length then none
  else some (pyStrip (pySlice line start (min endPos line.length)))

/-- Lines 186-188: an empty extracted string becomes `None` if the field
is nullable. -/
def fw_null_normalize (nullable : Bool) : Option String → Option String
  | none => none
  | some v => if v = "" ∧ nullable then none else some v

/-- Line 190: the final row value of a fixed-width field - extraction,
null-normalization, then `cast_value` to the declared type. -/
def fw_row_value (line : String) (start endPos : Nat) (nullable : Bool)
    (typ : String) (safeMode : Bool) : Except PyExc Value :=
  match fw_null_normalize nullable (fw_extract line start endPos) with
  | none => cast_value CastIn.null typ safeMode
  | some v => cast_value (CastIn.text v) typ safeMode

/-! ## Formula interpolation (formula_utils.py) and MD5 (hashlib.md5) -/

def lbrace : Char := Char.ofNat 123
def rbrace : Char := Char.ofNat 125

/-- `format(d, "f")` for a finite Decimal: plain fixed-point notation,
trailing zeros of the coefficient kept. -/
def decFixedStr (neg : Bool) (mant : Nat) (exp : Int) : String :=
  let body :=
    if 0 ≤ exp then String.mk (natDigits (mant * 10 ^ exp.toNat))
    else
      let k := (-exp).toNat
      let ds := natDigits mant
      if ds.length ≤ k then
        String.mk ('0' :: '.' :: (List.replicate (k - ds.length) '0' ++ ds))
      else
        String.mk (ds.take (ds.length - k) ++ '.' :: ds.drop (ds.length - k))
  if neg then "-" ++ body else body

/-- `replace_placeholder` (formula_utils.py:32-39): a missing or `None`
row value renders as the empty string, a Decimal in plain fixed notation,
anything else via `str(value)`. -/
def placeholderStr (row : Row) (key : String) : String :=
  match List.lookup key row with
  | none => ""
  | some Value.null => ""
  | some (Value.dec (Dec.fin neg mant exp)) => decFixedStr neg mant exp
  | some (Value.dec (Dec.inf neg)) => if neg then "-Infinity" else "Infinity"
  | some (Value.dec Dec.qnan) => "NaN"
  | some (Value.dec Dec.snan) => "sNaN"
  | some (Value.str s) => s
  | some (Value.int n) => intStr n
  | some (Value.float lit) => lit
  | some (Value.bool b) => if b then "True" else "False"

/-- `re.sub(r"\x7b([^\x7d]+)\x7d", replace_placeholder, text)` as a
left-to-right scan.  A match is an opening brace, one or more non-brace
characters (the key), then the next closing brace; anything else passes
through literally.  The accumulator holds the key characters (reversed)
scanned since an unmatched opening brace. -/
def interpAux (row : Row) : List Char → Option (List Char) → List Char
  | [], none => []
  | [], some acc => lbrace :: acc.reverse
  | c :: rest, none =>
    if c = lbrace then interpAux row rest (some [])
    else c :: interpAux row rest none
  | c :: rest, some acc =>
    if c = rbrace then
      match acc with
      | [] => lbrace :: rbrace :: interpAux row rest none
      | _ => (placeholderStr row (String.mk acc.reverse)).data ++ interpAux row rest none
    else interpAux row rest (some (c :: acc))

/-- Interpolate every placeholder of `text` from `row`. -/
def interpolate (row : Row) (text : String) : String :=
  String.mk (interpAux row text.data none)

/-- `re.match(r'^hash_md5\((.+)\)$', formula.strip())` (formula_utils.py:30):
after stripping, the whole formula is `hash_md5(` + a non-empty inner with
no newline + `)`; returns the inner text. -/
def hashInner (formula : String) : Option String :=
  let cs := (pyStrip formula).data
  if cs.take 9 = "hash_md5(".data then
    match (cs.drop 9).reverse with
    | ')' :: innerRev =>
      let inner := innerRev.reverse
      if inner ≠ [] ∧ inner.all (fun c => c ≠ '\n') then some (String.mk inner)
      else none
    | _ => none
  else none

/-! MD5 (RFC 1321), byte-level, as computed by `hashlib.md5(...).hexdigest()`. -/

def m32 : Nat := 4294967296

def mask32 : Nat := 4294967295

def not32 (x : Nat) : Nat := mask32 - x

def add32 (a b : Nat) : Nat := (a + b) % m32

def rotl32 (x s : Nat) : Nat := ((x <<< s) % m32) ||| (x >>> (32 - s))

/-- The 64 sine-derived round constants. -/
def md5K : List Nat :=
  [0xd76aa478, 0xe8c7b756, 0x242070db, 0xc1bdceee,
   0xf57c0faf, 0x4787c62a, 0xa8304613, 0xfd469501,
   0x698098d8, 0x8b44f7af, 0xffff5bb1, 0x895cd7be,
   0x6b901122, 0xfd987193, 0xa679438e, 0x49b40821,
   0xf61e2562, 0xc040b340, 0x265e5a51, 0xe9b6c7aa,
   0xd62f105d, 0x02441453, 0xd8a1e681, 0xe7d3fbc8,
   0x21e1cde6, 0xc33707d6, 0xf4d50d87, 0x455a14ed,
   0xa9e3e905, 0xfcefa3f8, 0x676f02d9, 0x8d2a4c8a,
   0xfffa3942, 0x8771f681, 0x6d9d6122, 0xfde5380c,
   0xa4beea44, 0x4bdecfa9, 0xf6bb4b60, 0xbebfbc70,
   0x289b7ec6, 0xeaa127fa, 0xd4ef3085, 0x04881d05,
   0xd9d4d039, 0xe6db99e5, 0x1fa27cf8, 0xc4ac5665,
   0xf4292244, 0x432aff97, 0xab9423a7, 0xfc93a039,
   0x655b59c3, 0x8f0ccc92, 0xffeff47d, 0x85845dd1,
   0x6fa87e4f, 0xfe2ce6e0, 0xa3014314, 0x4e0811a1,
   0xf7537e82, 0xbd3af235, 0x2ad7d2bb, 0xeb86d391]

/-- The 64 per-round left-rotation amounts. -/
def md5S : List Nat :=
  [7, 12, 17, 22, 7, 12, 17, 22, 7, 12, 17, 22, 7, 12, 17, 22,
   5,  9, 14, 20, 5,  9, 14, 20, 5,  9, 14, 20, 5,  9, 14, 20,
   4, 11, 16, 23, 4, 11, 16, 23, 4, 11, 16, 23, 4, 11, 16, 23,
   6, 10, 15, 21, 6, 10, 15, 21, 6, 10, 15, 21, 6, 10, 15, 21]

/-- Round function and message index for operation `i`. -/
def md5FG (i b c d : Nat) : Nat × Nat :=
  if i < 16 then ((b &&& c) ||| (not32 b &&& d), i)
  else if i < 32 then ((d &&& b) ||| (not32 d &&& c), (5 * i + 1) % 16)
  else if i < 48 then (b ^^^ c ^^^ d, (3 * i + 5) % 16)
  else (c ^^^ (b ||| not32 d), (7 * i) % 16)

def md5Op (block : List Nat) (st : Nat × Nat × Nat × Nat) (i : Nat) : Nat × Nat × Nat × Nat :=
  let a := st.1
  let b := st.2.1
  let c := st.2.2.1
  let d := st.2.2.2
  let fg := md5FG i b c d
  let tmp := (a + fg.1 + md5K.getD i 0 + block.getD fg.2 0) % m32
  (d, add32 b (rotl32 tmp (md5S.getD i 0)), b, c)

def md5Compress (st : Nat × Nat × Nat × Nat) (block : List Nat) : Nat × Nat × Nat × Nat :=
  let r := (List.range 64).foldl (md5Op block) st
  (add32 st.1 r.1, add32 st.2.1 r.2.1, add32 st.2.2.1 r.2.2.1, add32 st.2.2.2 r.2.2.2)

/-- `n` as `count` little-endian bytes. -/
def leBytes (n : Nat) : Nat → List Nat
  | 0 => []
  | count + 1 => n % 256 :: leBytes (n / 256) count

/-- MD5 padding: `0x80`, zeros to 56 mod 64, then the 64-bit little-endian
bit length. -/
def md5Pad (msg : List Nat) : List Nat :=
  let len := msg.length
  let z := (119 - len % 64) % 64
  msg ++ (128 :: List.replicate z 0) ++ leBytes ((len * 8) % 2 ^ 64) 8

/-- Group bytes into 32-bit little-endian words. -/
def bytesToWords : List Nat → List Nat
  | b0 :: b1 :: b2 :: b3 :: rest =>
    (b0 + b1 * 256 + b2 * 65536 + b3 * 16777216) :: bytesToWords rest
  | _ => []

/-- Split the padded message into 64-byte blocks (as 16-word lists);
the fuel is the byte count, enough since every round consumes at least
one byte. -/
def md5BlocksAux : Nat → List Nat → List (List Nat)
  | 0, _ => []
  | _, [] => []
  | fuel + 1, b :: rest =>
    bytesToWords ((b :: rest).take 64) :: md5BlocksAux fuel ((b :: rest).drop 64)

def md5Blocks (bs : List Nat) : List (List Nat) := md5BlocksAux bs.length bs

def md5Init : Nat × Nat × Nat × Nat := (0x67452301, 0xefcdab89, 0x98badcfe, 0x10325476)

/-- The 16 digest bytes of a byte message. -/
def md5Bytes (msg : List Nat) : List Nat :=
  let fin := (md5Blocks (md5Pad msg)).foldl md5Compress md5Init
  leBytes fin.1 4 ++ leBytes fin.2.1 4 ++ leBytes fin.2.2.1 4 ++ leBytes fin.2.2.2 4

def hexChar (n : Nat) : Char :=
  if n < 10 then Char.ofNat ('0'.toNat + n) else Char.ofNat ('a'.toNat + (n - 10))

def byteHex (b : Nat) : List Char := [hexChar (b / 16), hexChar (b % 16)]

/-- `hashlib.md5(bytes).hexdigest()`. -/
def md5HexOfBytes (msg : List Nat) : String :=
  String.mk ((md5Bytes msg).foldr (fun b acc => byteHex b ++ acc) [])

/-- UTF-8 encoding of one character (scalar value). -/
def charUtf8 (c : Char) : List Nat :=
  let n := c.toNat
  if n < 0x80 then [n]
  else if n < 0x800 then [0xc0 ||| (n >>> 6), 0x80 ||| (n &&& 0x3f)]
  else if n < 0x10000 then
    [0xe0 ||| (n >>> 12), 0x80 ||| ((n >>> 6) &&& 0x3f), 0x80 ||| (n &&& 0x3f)]
  else
    [0xf0 ||| (n >>> 18), 0x80 ||| ((n >>> 12) &&& 0x3f),
     0x80 ||| ((n >>> 6) &&& 0x3f), 0x80 ||| (n &&& 0x3f)]

/-- `s.encode('utf-8')`. -/
def utf8Bytes (s : String) : List Nat :=
  s.data.foldr (fun c acc => charUtf8 c ++ acc) []

/-- `hashlib.md5(s.encode('utf-8')).hexdigest()`. -/
def md5Hex (s : String) : String := md5HexOfBytes (utf8Bytes s)

/-- `format_formula(formula, row)` (formula_utils.py:13-46): empty formula
gives the empty string; a full `hash_md5(inner)` match interpolates the
inner text and returns its MD5 hex digest; otherwise the formula itself is
interpolated. -/
def format_formula (formula : String) (row : Row) : String :=
  if formula = "" then ""
  else
    match hashInner formula with
    | some inner => md5Hex (interpolate row inner)
    | none => interpolate row formula

/-! ## The computing pass inlined in the parsers
(csv_parser.py:149-157, xml_parser.py:241-250, fixed_width_parser.py:194-202,
json_parser.py:220-229 - all four are the same loop) -/

/-- One entry of `config["computed_fields"]`. -/
structure CompDef where
  formula : String := ""
  type : String := "string"

/-- The members of a field's config dict that the computing pass reads. -/
structure FieldCfg where
  name : String
  type : String := "string"
  computed_field : Option String := none

/-- The computing pass: for every field of type `computed` with a
`computed_field` reference, look the formula up and store the
`format_formula` result - a raw string - in the row (`None` when the
formula is empty or the reference is undefined).  Note the `cast_value`
call of `BaseParser.process_computed_fields` is absent: no parser invokes
that method. -/
def computedPass (computedDefs : List (String × CompDef)) (fields : List FieldCfg)
    (row : Row) : Row :=
  fields.foldl
    (fun row fld =>
      match fld.computed_field with
      | some ref =>
        if fld.type = "computed" then
          match List.lookup ref computedDefs with
          | some comp =>
            rowSet row fld.name
              (if comp.formula ≠ "" then Value.str (format_formula comp.formula row) else Value.null)
          | none => rowSet row fld.name Value.null
        else row
      | none => row)
    row

/-- `BaseParser.process_computed_fields` (base_parser.py:139-155): the dead
helper that does cast the formula result to the computed field's declared
type.  Embedded for comparison with the spec's description; no parser
calls it. -/
def process_computed_fields (computedDefs : List (String × CompDef)) (safeMode : Bool)
    (row : Row) : Except PyExc Row :=
  computedDefs.foldlM
    (fun row entry =>
      match List.lookup entry.1 row with
      | some _ =>
        if entry.2.formula ≠ "" then
          let computedValue := format_formula entry.2.formula row
          (cast_value (CastIn.text computedValue) entry.2.type safeMode).map
            (fun v => rowSet row entry.1 v)
        else Except.ok row
      | none => Except.ok row)
    row

/-! ## JSON path extraction (json_utils.py:14-106) -/

/-- JSON documents as loaded by `json.load`: numbers are carried as their
literals (their arithmetic is never inspected by path traversal). -/
inductive Json where
  | null
  | boolv (b : Bool)
  | strv (s : String)
  | numv (lit : String)
  | arr (xs : List Json)
  | obj (fields : List (String × Json))

/-- Python `int(s)`: optional surrounding whitespace, optional sign, one
or more digits; `none` models `ValueError`. -/
def pyIntParse (s : String) : Option Int :=
  let cs := stripChars s.data
  let sr := takeSign cs
  if sr.2 ≠ [] ∧ sr.2.all isDigitChar then
    some (if sr.1 then -(digitsToNat sr.2 : Int) else (digitsToNat sr.2 : Int))
  else none

/-- `current.get(key)`: JSON `null` values and missing keys are both
Python `None`, so both map to `Json.null`. -/
def objGet (fields : List (String × Json)) (key : String) : Json :=
  match List.lookup key fields with
  | some v => v
  | none => Json.null

/-- `current[i]` on a list: raises `IndexError` out of range (the code
always guards this with `index < len(current)`). -/
def pyListGet (xs : List Json) (i : Nat) : Except PyExc Json :=
  match xs.get? i with
  | some v => Except.ok v
  | none => Except.error PyExc.indexError

/-- The shared list-indexing logic of `extract_json_path`
(json_utils.py:62-78 and 82-93): `int(index_str)` with `ValueError`
caught, negative and out-of-range indices and non-list containers all
give `None`; in-range indices read the element. -/
def jsonIndexStep (cur : Json) (indexStr : String) : Except PyExc Json :=
  match cur with
  | Json.arr xs =>
    match pyIntParse indexStr with
    | none => Except.ok Json.null
    | some i =>
      if i < 0 then Except.ok Json.null
      else if i.toNat < xs.length then pyListGet xs i.toNat
      else Except.ok Json.null
  | _ => Except.ok Json.null

/-- The key part of a bracketed segment (json_utils.py:55-60): a
non-empty key requires a dict and a present, non-null value; `none`
models the early `return None`. -/
def jsonKeyStep (current : Json) (keyChars : List Char) : Option Json :=
  if keyChars ≠ [] then
    match current with
    | Json.obj fields =>
      match objGet fields (String.mk keyChars) with
      | Json.null => none             -- missing key or stored null: return None
      | v => some v
    | _ => none                       -- not a dict: return None
  else some current

/-- One loop iteration of `extract_json_path` over a path segment
(json_utils.py:46-98); an `ok Json.null` is an early `return None`. -/
def jsonStep (current : Json) (part : String) : Except PyExc Json :=
  if part.data.contains '[' ∧ part.data.getLast? = some ']' then
    -- "items[0]" style: key (possibly empty) before the first bracket,
    -- index text between the first bracket and the trailing bracket
    let keyChars := part.data.takeWhile (fun c => c ≠ '[')
    let indexStr := String.mk ((part.data.drop (keyChars.length + 1)).dropLast)
    match jsonKeyStep current keyChars with
    | none => Except.ok Json.null
    | some cur => jsonIndexStep cur indexStr
  else
    match current with
    | Json.obj fields => Except.ok (objGet fields part)
    | Json.arr xs => jsonIndexStep (Json.arr xs) part
    | _ => Except.ok Json.null          -- traversing a non-container: return None

/-- The traversal loop (json_utils.py:45-103): run each segment, stopping
with `None` as soon as the current value is `None`. -/
def jsonGo (current : Json) : List String → Except PyExc Json
  | [] => Except.ok current
  | part :: rest =>
    match jsonStep current part with
    | Except.error e => Except.error e
    | Except.ok Json.null => Except.ok Json.null
    | Except.ok c2 => jsonGo c2 rest

/-- Exceptions the outer handler of `extract_json_path` catches
(`AttributeError, KeyError, IndexError, TypeError`). -/
def caughtByJsonPath : PyExc → Bool
  | PyExc.indexError => true
  | _ => false

/-- `extract_json_path(data, path)` (json_utils.py:14-106): empty path
returns the data; `None` data or a primitive root yields `None`; otherwise
the dot/bracket traversal runs under the outer exception guard. -/
def extract_json_path (data : Json) (path : String) : Except PyExc Json :=
  if path = "" then Except.ok data
  else
    match data with
    | Json.null => Except.ok Json.null
    | Json.obj fields =>
      match jsonGo (Json.obj fields) (path.splitOn ".") with
      | Except.ok v => Except.ok v
      | Except.error e => if caughtByJsonPath e then Except.ok Json.null else Except.error e
    | Json.arr xs =>
      match jsonGo (Json.arr xs) (path.splitOn ".") with
      | Except.ok v => Except.ok v
      | Except.error e => if caughtByJsonPath e then Except.ok Json.null else Except.error e
    | _ => Except.ok Json.null

/-! ## XML parser control flow (xml_parser.py:64-269)

Only what claim C5 needs is modelled: lxml XPath evaluation is a function
of the namespace map that either yields a node list or raises
`XPathEvalError` when the expression uses a namespace name with no
binding (lxml resolves namespace names at evaluation time, so the
`except XPathSyntaxError` fallbacks around compilation do not catch it).
Context extraction and the `json`/`xml` field types are not modelled: both
sit inside the same per-node `try` block, so their namespace failures
route identically. -/

/-- An XML element; only its text content is read by casting. -/
structure XNode where
  text : Option String := none

/-- An XPath expression: the namespace names it uses, and the node list it
evaluates to (per context node) when they are all bound. -/
structure XExpr where
  nsUsed : List String := []
  nodesOf : XNode → List XNode := fun _ => []

/-- Compiled-XPath evaluation: `XPathEvalError` iff the expression uses an
unbound namespace name. -/
def xpathEval (bound : List String) (e : XExpr) (n : XNode) : Except PyExc (List XNode) :=
  if e.nsUsed.all (fun p => bound.contains p) then Except.ok (e.nodesOf n)
  else Except.error PyExc.xpathEvalError

/-- A field of an XML record (the config members the row loop reads). -/
structure XField where
  name : String
  type : String := "string"
  path : Option XExpr := none
  computed_field : Option String := none

def XField.toFieldCfg (f : XField) : FieldCfg :=
  { name := f.name, type := f.type, computed_field := f.computed_field }

/-- An XML record definition with its prebuilt validation field defs
(`build_field_defs` output). -/
structure XRecord where
  name : String
  select : XExpr
  fields : List XField := []
  fieldDefs : List FieldDef := []

def pyExcMsg : PyExc → String
  | PyExc.valueError m => m
  | PyExc.invalidOperation => "InvalidOperation"
  | PyExc.overflowError => "OverflowError"
  | PyExc.indexError => "IndexError"
  | PyExc.xpathEvalError => "XPathEvalError: Undefined namespace prefix"

/-- `val = val[0] if isinstance(val, list) and val else val` followed by
`cast_value` (xml_parser.py:236-239). -/
def nodeCast (nodes : List XNode) (typ : String) (safeMode : Bool) : Except PyExc Value :=
  match nodes with
  | [] => cast_value (CastIn.listv []) typ safeMode
  | x :: _ => cast_value (CastIn.elem x.text) typ safeMode

/-- The field-extraction loop for one node (xml_parser.py:196-239):
computed fields are placeholdered with null, pathless fields are null,
otherwise the path is evaluated against the node and the result cast;
any exception (undefined namespace, strict-mode cast failure) propagates. -/
def xmlBuildRow (bound : List String) (node : XNode) (fields : List XField)
    (safeMode : Bool) : Except PyExc Row :=
  fields.foldlM
    (fun row fld =>
      if fld.type = "computed" then Except.ok (rowSet row fld.name Value.null)
      else
        match fld.path with
        | none => Except.ok (rowSet row fld.name Value.null)
        | some p =>
          match xpathEval bound p node with
          | Except.error e => Except.error e
          | Except.ok nodes =>
            match nodeCast nodes fld.type safeMode with
            | Except.error e => Except.error e
            | Except.ok v => Except.ok (rowSet row fld.name v))
    []

/-- One node through the per-node `try` block (xml_parser.py:164-259):
build the row, run the computing pass, bump `total_rows`, validate and
write; an exception goes to `handle_row_error` which re-raises unless
`continueOnError`. -/
def xmlProcessNode (bound : List String) (computedDefs : List (String × CompDef))
    (rec : XRecord) (continueOnError safeMode : Bool) (node : XNode)
    (st : StatsMap) (w : Writer) : (StatsMap × Writer) × Option String :=
  match xmlBuildRow bound node rec.fields safeMode with
  | Except.ok row =>
    let row2 := computedPass computedDefs (rec.fields.map XField.toFieldCfg) row
    let st1 := statsUpdate st rec.name (fun p => { p with total_rows := p.total_rows + 1 })
    ((validate_and_write_row rec.name row2 rec.fieldDefs st1 w).1, none)
  | Except.error e =>
    let r := handle_row_error rec.name (pyExcMsg e) continueOnError st
    ((r.1, w), r.2)

/-- The node loop of one record: a handled row error continues with the
next node; a re-raised one aborts. -/
def xmlNodeLoop (bound : List String) (computedDefs : List (String × CompDef))
    (rec : XRecord) (continueOnError safeMode : Bool) :
    List XNode → StatsMap → Writer → (StatsMap × Writer) × Option String
  | [], st, w => ((st, w), none)
  | n :: rest, st, w =>
    match xmlProcessNode bound computedDefs rec continueOnError safeMode n st w with
    | (sw, none) => xmlNodeLoop bound computedDefs rec continueOnError safeMode rest sw.1 sw.2
    | (sw, some e) => (sw, some e)

/-- The record loop (xml_parser.py:139-263): evaluate each record's
`select` against the root - an `XPathEvalError` here is not caught by any
row-level handler and propagates - then run the node loop. -/
def xmlRecordLoop (bound : List String) (computedDefs : List (String × CompDef))
    (continueOnError safeMode : Bool) (root : XNode) :
    List XRecord → StatsMap → Writer → (StatsMap × Writer) × Option String
  | [], st, w => ((st, w), none)
  | rec :: rest, st, w =>
    match xpathEval bound rec.select root with
    | Except.error e => ((st, w), some (pyExcMsg e))
    | Except.ok nodes =>
      match xmlNodeLoop bound computedDefs rec continueOnError safeMode nodes st w with
      | (sw, none) => xmlRecordLoop bound computedDefs continueOnError safeMode root rest sw.1 sw.2
      | (sw, some e) => (sw, some e)

/-- `parse_xml` failure containment (xml_parser.py:96-269): any exception
escaping the record loop reaches `handle_file_error`; with
`ignoreBrokenFiles` the parse reports `(False, msg)` after bumping
`file_parse_failures` for every record, otherwise it re-raises. -/
def parse_xml_model (bound : List String) (computedDefs : List (String × CompDef))
    (records : List XRecord) (root : XNode)
    (continueOnError ignoreBroken safeMode : Bool)
    (st : StatsMap) (w : Writer) :
    (StatsMap × Writer) × Except String (Bool × Option String) :=
  match xmlRecordLoop bound computedDefs continueOnError safeMode root records st w with
  | ((st1, w1), none) => ((st1, w1), Except.ok (true, none))
  | ((st1, w1), some e) =>
    let r := handle_file_error (records.map XRecord.name) e ignoreBroken st1
    ((r.1, w1), r.2)

/-! ## Derived notions used by the statements -/

/-- The row-count conservation invariant of a `ParsingStats`. -/
def statsConserved (p : ParsingStats) : Prop :=
  p.total_rows = p.success_rows + p.failed_rows

/-- Number of accepted rows written for a given record name. -/
def countAccepted (xs : List (String × Row)) (n : String) : Nat :=
  (xs.filter (fun e => e.1 = n)).length

/-- Number of rejected rows written for a given record name. -/
def countRejected (xs : List (String × Row × String)) (n : String) : Nat :=
  (xs.filter (fun e => e.1 = n)).length

/-- `isinstance(data, (dict, list))`. -/
def Json.isContainer : Json → Bool
  | Json.obj _ => true
  | Json.arr _ => true
  | _ => false

instance {ε α : Type} [DecidableEq ε] [DecidableEq α] : DecidableEq (Except ε α) := fun x y =>
  match x, y with
  | Except.ok a, Except.ok b =>
    if h : a = b then Decidable.isTrue (congrArg Except.ok h)
    else Decidable.isFalse (fun hc => h (Except.ok.inj hc))
  | Except.error a, Except.error b =>
    if h : a = b then Decidable.isTrue (congrArg Except.error h)
    else Decidable.isFalse (fun hc => h (Except.error.inj hc))
  | Except.ok _, Except.error _ => Decidable.isFalse (fun hc => Except.noConfusion hc)
  | Except.error _, Except.ok _ => Decidable.isFalse (fun hc => Except.noConfusion hc)

/-! ## Concrete fixtures used by the closed statements -/

/-- Extraction that always raises (a cast/extraction failure). -/
def alwaysErrorExtract : CsvRecInfo → CsvRow → Except String Row :=
  fun _ _ => Except.error "boom"

/-- Extraction that always succeeds with an empty row. -/
def alwaysOkExtract : CsvRecInfo → CsvRow → Except String Row :=
  fun _ _ => Except.ok []

/-- Extraction failing only on the cell list `["bad"]`. -/
def mixedExtract : CsvRecInfo → CsvRow → Except String Row :=
  fun _ cells => if cells = ["bad"] then Except.error "boom" else Except.ok []

def recR : CsvRecInfo := { name := "r", fieldDefs := [] }

def recFirst : CsvRecInfo := { name := "first", fieldDefs := [] }

def recSecond : CsvRecInfo := { name := "second", fieldDefs := [] }

/-- An XPath expression using a namespace name with no binding. -/
def undefNsExpr : XExpr := { nsUsed := ["undef"], nodesOf := fun _ => [] }

/-- A well-formed select matching one node. -/
def okSelectExpr : XExpr := { nsUsed := [], nodesOf := fun _ => [{ text := some "v" }] }

/-- A record whose select is fine but whose field path uses an undefined
namespace name. -/
def badFieldRecord : XRecord :=
  { name := "r", select := okSelectExpr, fields := [{ name := "f", path := some undefNsExpr }],
    fieldDefs := [{ name := "f" }] }

/-- A record whose select itself uses an undefined namespace name. -/
def badSelectRecord : XRecord :=
  { name := "r", select := undefNsExpr, fields := [{ name := "f", path := some undefNsExpr }],
    fieldDefs := [] }

/-! ## Helper lemmas -/

theorem statsUpdate_ne (st : StatsMap) (name : String) (f : ParsingStats → ParsingStats)
    (n : String) (h : n ≠ name) : statsUpdate st name f n = st n := by
  simp [statsUpdate, h]

theorem statsUpdate_self (st : StatsMap) (name : String) (f : ParsingStats → ParsingStats) :
    statsUpdate st name f name = f (st name) := by
  simp [statsUpdate]

/-! ## C1 -/

/-- C1 (code_bug evidence): `cast_value("Infinity", "int")` raises
`OverflowError` from `int(Decimal("Infinity"))`, which the
`except (ValueError, InvalidOperation)` clause does not catch - so safe
mode raises, contradicting the claim that `safe_mode=True` never raises
(and the function's own docstring). -/
theorem c1_cast_value_safe_mode_raises_overflow :
    cast_value (CastIn.text "Infinity") "int" true = Except.error PyExc.overflowError ∧
    cast_value (CastIn.text "Infinity") "int" false = Except.error PyExc.overflowError := by
  exact ⟨by decide, by decide⟩

/-! ## C7 -/

/-- C7: for a fixed-width field with `start ≥ 0` and `end > start`,
extraction from a line of any length is total: when `start` is at or past
the end of the line the raw value is null, and otherwise it is the
substring `line[start:min(end, len(line))]` stripped of surrounding
whitespace - the end is clamped, never an out-of-bounds error. -/
theorem c7_fixed_width_clamp (line : String) (start endPos : Nat) (h : start < endPos) :
    (start ≥ line.length → fw_extract line start endPos = none) ∧
    (start < line.length →
      fw_extract line start endPos =
        some (pyStrip (String.mk ((line.data.drop start).take (min endPos line.length - start))))) := by
  constructor
  · intro hge
    unfold fw_extract
    rw [if_pos hge]
  · intro hlt
    unfold fw_extract
    rw [if_neg (not_le.mpr hlt)]
    rfl

/-- Witness for C7 at `line = "ab"`, `start = 1`, `end = 7`. -/
theorem c7_witness :
    (1 < 7 ∧ 1 < "ab".length) ∧ fw_extract "ab" 1 7 = some "b" := by
  refine ⟨by decide, ?_⟩
  have h := (c7_fixed_width_clamp "ab" 1 7 (by decide)).2 (by decide)
  rw [h]
  decide

/-! ## C8 -/

/-- C8: when the extracted fixed-width substring is empty after trimming,
the final row value is null regardless of the `nullable` flag (the cast
step maps empty text to null), and a null value of a non-nullable field is
always rejected by validation. -/
theorem c8_empty_after_trim_is_null (line : String) (start endPos : Nat)
    (nullable : Bool) (typ : String) (safeMode : Bool)
    (hs : start < line.length)
    (he : pyStrip (pySlice line start (min endPos line.length)) = "") :
    fw_row_value line start endPos nullable typ safeMode = Except.ok Value.null ∧
    (∀ fd : FieldDef, fd.nullable = false → (validate_field_value Value.null fd).1 = false) := by
  have hext : fw_extract line start endPos =
      some (pyStrip (pySlice line start (min endPos line.length))) := by
    unfold fw_extract
    rw [if_neg (not_le.mpr hs)]
  constructor
  · unfold fw_row_value
    rw [hext, he]
    cases nullable with
    | true =>
      show (match fw_null_normalize true (some "") with
            | none => cast_value CastIn.null typ safeMode
            | some v => cast_value (CastIn.text v) typ safeMode) = Except.ok Value.null
      simp [fw_null_normalize, cast_value]
    | false =>
      show (match fw_null_normalize false (some "") with
            | none => cast_value CastIn.null typ safeMode
            | some v => cast_value (CastIn.text v) typ safeMode) = Except.ok Value.null
      simp only [fw_null_normalize]
      show cast_value (CastIn.text "") typ safeMode = Except.ok Value.null
      rfl
  · intro fd hfd
    simp [validate_field_value, hfd]

/-- Witness for C8 at `line = "ab   x"`, `start = 2`, `end = 5`
(an all-spaces region), non-nullable int field in strict mode. -/
theorem c8_witness :
    (2 < "ab   x".length ∧ pyStrip (pySlice "ab   x" 2 (min 5 "ab   x".length)) = "") ∧
    fw_row_value "ab   x" 2 5 false "int" false = Except.ok Value.null ∧
    (validate_field_value Value.null { name := "f", nullable := false }).1 = false := by
  refine ⟨⟨by decide, by decide⟩, ?_, ?_⟩
  · exact (c8_empty_after_trim_is_null "ab   x" 2 5 false "int" false (by decide) (by decide)).1
  · exact (c8_empty_after_trim_is_null "ab   x" 2 5 false "int" false (by decide) (by decide)).2
      { name := "f", nullable := false } rfl

/-! ## C2 -/

/-- C2 (counterexample): a computed field declared with type `int` and
formula `{a}` over the row `{a: 42}` is stored as the raw interpolated
string `"42"`, although casting that string to the declared type would
give the integer `42`: the computing pass inlined in every parser stores
the `format_formula` result without the cast the claim describes. -/
theorem c2_counterexample :
    rowGet
      (computedPass [("calcTotal", { formula := "{a}", type := "int" })]
        [{ name := "total", type := "computed", computed_field := some "calcTotal" }]
        [("a", Value.int 42), ("total", Value.null)]) "total" = Value.str "42" ∧
    cast_value (CastIn.text "42") "int" true = Except.ok (Value.int 42) ∧
    Value.str "42" ≠ Value.int 42 := by
  refine ⟨by decide, by decide, by decide⟩

/-- C2 (amended): after the computing pass, a computed field whose
reference resolves to a defined, non-empty formula holds the raw
interpolated string `Value.str (format_formula ...)` - evaluated over the
row as built so far - with no cast to the field's declared type.  (The
cast-to-declared-type behaviour exists only in
`BaseParser.process_computed_fields`, which no parser calls.) -/
theorem c2_amended (defs : List (String × CompDef)) (pre : List FieldCfg)
    (fld : FieldCfg) (row : Row) (ref : String) (comp : CompDef)
    (ht : fld.type = "computed") (hr : fld.computed_field = some ref)
    (hc : List.lookup ref defs = some comp) (hf : comp.formula ≠ "") :
    computedPass defs (pre ++ [fld]) row
      = rowSet (computedPass defs pre row) fld.name
          (Value.str (format_formula comp.formula (computedPass defs pre row))) := by
  unfold computedPass
  rw [List.foldl_append]
  simp [hr, ht, hc, hf]

/-- Witness for C2 (amended) at the counterexample's configuration. -/
theorem c2_amended_witness :
    computedPass [("calcTotal", { formula := "{a}", type := "int" })]
      ([] ++ [{ name := "total", type := "computed", computed_field := some "calcTotal" }])
      [("a", Value.int 42), ("total", Value.null)]
    = rowSet [("a", Value.int 42), ("total", Value.null)] "total"
        (Value.str (format_formula "{a}" [("a", Value.int 42), ("total", Value.null)])) :=
  c2_amended [("calcTotal", { formula := "{a}", type := "int" })] []
    { name := "total", type := "computed", computed_field := some "calcTotal" }
    [("a", Value.int 42), ("total", Value.null)] "calcTotal"
    { formula := "{a}", type := "int" } rfl rfl rfl (by decide)

/-! ## C9 (helper lemmas first) -/

theorem vawrStep_snd_ne (recordName : String) (row : Row) (acc : List String × StatsMap)
    (fd : FieldDef) (n : String) (hn : n ≠ recordName) :
    (vawrStep recordName row acc fd).2 n = acc.2 n := by
  unfold vawrStep
  cases h : (validate_field_value (rowGet row fd.name) fd).1 with
  | true => simp [h]
  | false => simp [h, statsUpdate, hn]

theorem vawrFold_other (recordName : String) (row : Row) (fds : List FieldDef) :
    ∀ (errs0 : List String) (st : StatsMap) (n : String), n ≠ recordName →
      ((fds.foldl (vawrStep recordName row) (errs0, st)).2) n = st n := by
  induction fds with
  | nil => intro _ _ _ _; rfl
  | cons fd rest ih =>
    intro errs0 st n hn
    simp only [List.foldl_cons]
    rcases hstep : vawrStep recordName row (errs0, st) fd with ⟨errs1, st1⟩
    have h2 := vawrStep_snd_ne recordName row (errs0, st) fd n hn
    rw [hstep] at h2
    rw [ih errs1 st1 n hn]
    exact h2

theorem vawr_other (recordName : String) (row : Row) (fds : List FieldDef)
    (st : StatsMap) (w : Writer) (n : String) (hn : n ≠ recordName) :
    (validate_and_write_row recordName row fds st w).1.1 n = st n := by
  have hfold := vawrFold_other recordName row fds [] st n hn
  simp only [validate_and_write_row]
  split
  · simp [statsUpdate, hn, hfold]
  · simp [statsUpdate, hn, hfold]

theorem vawr_accepted (recordName : String) (row : Row) (fds : List FieldDef)
    (st : StatsMap) (w : Writer) :
    (validate_and_write_row recordName row fds st w).1.2.accepted = w.accepted ∨
    (validate_and_write_row recordName row fds st w).1.2.accepted
      = w.accepted ++ [(recordName, row)] := by
  simp only [validate_and_write_row]
  split
  · left; rfl
  · right; rfl

theorem vawr_rejected (recordName : String) (row : Row) (fds : List FieldDef)
    (st : StatsMap) (w : Writer) :
    (validate_and_write_row recordName row fds st w).1.2.rejected = w.rejected ∨
    ∃ e, (validate_and_write_row recordName row fds st w).1.2.rejected
      = w.rejected ++ [(recordName, row, e)] := by
  simp only [validate_and_write_row]
  split
  · right; exact ⟨_, rfl⟩
  · left; rfl

theorem countAccepted_append_one (xs : List (String × Row)) (rn : String) (row : Row)
    (n : String) (hn : n ≠ rn) :
    countAccepted (xs ++ [(rn, row)]) n = countAccepted xs n := by
  unfold countAccepted
  rw [List.filter_append]
  have hne : ¬ (rn = n) := fun hc => hn hc.symm
  simp [List.filter, hne]

theorem countRejected_append_one (xs : List (String × Row × String)) (rn : String)
    (row : Row) (e : String) (n : String) (hn : n ≠ rn) :
    countRejected (xs ++ [(rn, row, e)]) n = countRejected xs n := by
  unfold countRejected
  rw [List.filter_append]
  have hne : ¬ (rn = n) := fun hc => hn hc.symm
  simp [List.filter, hne]

/-- Per-row form of C9: a non-head record's stats and written rows are
untouched. -/
theorem processCsvRow_other (r : CsvRecInfo) (rest : List CsvRecInfo)
    (extract : CsvRecInfo → CsvRow → Except String Row) (cells : CsvRow)
    (coe : Bool) (st : StatsMap) (w : Writer) (n : String) (hn : n ≠ r.name) :
    (processCsvRow (r :: rest) extract cells coe st w).1.1 n = st n ∧
    countAccepted (processCsvRow (r :: rest) extract cells coe st w).1.2.accepted n
      = countAccepted w.accepted n ∧
    countRejected (processCsvRow (r :: rest) extract cells coe st w).1.2.rejected n
      = countRejected w.rejected n := by
  unfold processCsvRow
  cases hb : isBlankCsvRow cells with
  | true => simp [hb]
  | false =>
    simp only [hb]
    cases hx : extract r cells with
    | ok row =>
      simp only [Bool.false_eq_true, if_false]
      refine ⟨?_, ?_, ?_⟩
      · exact (vawr_other r.name row r.fieldDefs _ w n hn).trans (statsUpdate_ne st r.name _ n hn)
      · rcases vawr_accepted r.name row r.fieldDefs
          (statsUpdate st r.name (fun p => { p with total_rows := p.total_rows + 1 })) w with h | h
        · rw [h]
        · rw [h, countAccepted_append_one _ _ _ _ hn]
      · rcases vawr_rejected r.name row r.fieldDefs
          (statsUpdate st r.name (fun p => { p with total_rows := p.total_rows + 1 })) w with h | ⟨e, h⟩
        · rw [h]
        · rw [h, countRejected_append_one _ _ _ _ _ hn]
    | error e =>
      refine ⟨?_, ?_, ?_⟩ <;> simp [handle_row_error, statsUpdate, hn]

/-- C9: in `parse_csv`, only the first configured record definition is
ever applied to a row: the per-row loop over record definitions breaks
unconditionally after the head record (in the success arm and the error
arm alike), so running any row list leaves every other record's
statistics, accepted rows and rejected rows unchanged - and the whole run
is equal to the run over just the head record. -/
theorem c9_csv_first_record_only (r : CsvRecInfo) (rest : List CsvRecInfo)
    (extract : CsvRecInfo → CsvRow → Except String Row) (rows : List CsvRow)
    (coe : Bool) (st : StatsMap) (w : Writer) (n : String) (hn : n ≠ r.name) :
    (runCsvRows (r :: rest) extract rows coe st w).1.1 n = st n ∧
    countAccepted (runCsvRows (r :: rest) extract rows coe st w).1.2.accepted n
      = countAccepted w.accepted n ∧
    countRejected (runCsvRows (r :: rest) extract rows coe st w).1.2.rejected n
      = countRejected w.rejected n ∧
    runCsvRows (r :: rest) extract rows coe st w = runCsvRows [r] extract rows coe st w := by
  induction rows generalizing st w with
  | nil => exact ⟨rfl, rfl, rfl, rfl⟩
  | cons cells rest2 ih =>
    have hstep := processCsvRow_other r rest extract cells coe st w n hn
    have hsame : processCsvRow (r :: rest) extract cells coe st w
        = processCsvRow [r] extract cells coe st w := rfl
    rcases hpr : processCsvRow (r :: rest) extract cells coe st w with ⟨⟨st1, w1⟩, err⟩
    have hpr2 : processCsvRow [r] extract cells coe st w = ((st1, w1), err) := by
      rw [← hsame]; exact hpr
    rw [hpr] at hstep
    cases err with
    | none =>
      have ihh := ih st1 w1
      simp only [runCsvRows, hpr, hpr2]
      refine ⟨?_, ?_, ?_, ?_⟩
      · rw [ihh.1]; exact hstep.1
      · rw [ihh.2.1]; exact hstep.2.1
      · rw [ihh.2.2.1]; exact hstep.2.2
      · exact ihh.2.2.2
    | some e =>
      simp only [runCsvRows, hpr, hpr2]
      exact ⟨hstep.1, hstep.2.1, hstep.2.2, trivial⟩

/-- Witness for C9: two records configured, one data row; the second
record's stats stay zero. -/
theorem c9_witness :
    (runCsvRows [recFirst, recSecond] alwaysOkExtract [["x"]] true zeroStats {}).1.1 "second"
      = zeroStats "second" :=
  (c9_csv_first_record_only recFirst [recSecond] alwaysOkExtract [["x"]] true zeroStats {}
    "second" (by decide)).1

/-! ## C3 / C4 (stats accounting of the row pipeline) -/

theorem vawrStep_snd_counters (recordName : String) (row : Row)
    (acc : List String × StatsMap) (fd : FieldDef) (n : String) :
    ((vawrStep recordName row acc fd).2 n).total_rows = (acc.2 n).total_rows ∧
    ((vawrStep recordName row acc fd).2 n).success_rows = (acc.2 n).success_rows ∧
    ((vawrStep recordName row acc fd).2 n).failed_rows = (acc.2 n).failed_rows ∧
    ((vawrStep recordName row acc fd).2 n).skipped_rows = (acc.2 n).skipped_rows ∧
    ((vawrStep recordName row acc fd).2 n).file_parse_failures = (acc.2 n).file_parse_failures := by
  unfold vawrStep
  cases h : (validate_field_value (rowGet row fd.name) fd).1 with
  | true => simp [h]
  | false =>
    by_cases hn : n = recordName <;> simp [h, statsUpdate, hn]

theorem vawrFold_counters (recordName : String) (row : Row) (fds : List FieldDef) :
    ∀ (errs0 : List String) (st : StatsMap) (n : String),
      (((fds.foldl (vawrStep recordName row) (errs0, st)).2) n).total_rows = (st n).total_rows ∧
      (((fds.foldl (vawrStep recordName row) (errs0, st)).2) n).success_rows = (st n).success_rows ∧
      (((fds.foldl (vawrStep recordName row) (errs0, st)).2) n).failed_rows = (st n).failed_rows ∧
      (((fds.foldl (vawrStep recordName row) (errs0, st)).2) n).skipped_rows = (st n).skipped_rows ∧
      (((fds.foldl (vawrStep recordName row) (errs0, st)).2) n).file_parse_failures
        = (st n).file_parse_failures := by
  induction fds with
  | nil => intro _ _ _; exact ⟨rfl, rfl, rfl, rfl, rfl⟩
  | cons fd rest ih =>
    intro errs0 st n
    simp only [List.foldl_cons]
    rcases hstep : vawrStep recordName row (errs0, st) fd with ⟨errs1, st1⟩
    have hc := vawrStep_snd_counters recordName row (errs0, st) fd n
    rw [hstep] at hc
    have hi := ih errs1 st1 n
    exact ⟨hi.1.trans hc.1, hi.2.1.trans hc.2.1, hi.2.2.1.trans hc.2.2.1,
           hi.2.2.2.1.trans hc.2.2.2.1, hi.2.2.2.2.trans hc.2.2.2.2⟩

theorem vawr_counters (recordName : String) (row : Row) (fds : List FieldDef)
    (st : StatsMap) (w : Writer) (n : String) :
    ((validate_and_write_row recordName row fds st w).1.1 n).total_rows = (st n).total_rows ∧
    ((validate_and_write_row recordName row fds st w).1.1 n).skipped_rows = (st n).skipped_rows ∧
    ((validate_and_write_row recordName row fds st w).1.1 n).file_parse_failures
      = (st n).file_parse_failures ∧
    ((validate_and_write_row recordName row fds st w).1.1 n).success_rows
      + ((validate_and_write_row recordName row fds st w).1.1 n).failed_rows
      = (st n).success_rows + (st n).failed_rows + (if n = recordName then 1 else 0) := by
  obtain ⟨h1, h2, h3, h4, h5⟩ := vawrFold_counters recordName row fds [] st n
  simp only [validate_and_write_row]
  split
  · by_cases hn : n = recordName
    · subst hn
      simp [statsUpdate]
      omega
    · simp [statsUpdate, hn]
      omega
  · by_cases hn : n = recordName
    · subst hn
      simp [statsUpdate]
      omega
    · simp [statsUpdate, hn]
      omega

theorem processCsvRow_blank (recs : List CsvRecInfo)
    (extract : CsvRecInfo → CsvRow → Except String Row) (cells : CsvRow)
    (coe : Bool) (st : StatsMap) (w : Writer) (hb : isBlankCsvRow cells = true) :
    processCsvRow recs extract cells coe st w = ((st, w), none) := by
  unfold processCsvRow
  rw [hb]
  rfl

theorem processCsvRow_ok (r : CsvRecInfo) (rest : List CsvRecInfo)
    (extract : CsvRecInfo → CsvRow → Except String Row) (cells : CsvRow)
    (coe : Bool) (st : StatsMap) (w : Writer) (row : Row)
    (hnb : isBlankCsvRow cells = false) (hx : extract r cells = Except.ok row) :
    processCsvRow (r :: rest) extract cells coe st w
      = ((validate_and_write_row r.name row r.fieldDefs
           (statsUpdate st r.name (fun p => { p with total_rows := p.total_rows + 1 })) w).1,
         none) := by
  unfold processCsvRow
  rw [hnb]
  simp only [Bool.false_eq_true, if_false]
  rw [hx]

theorem processCsvRow_err (r : CsvRecInfo) (rest : List CsvRecInfo)
    (extract : CsvRecInfo → CsvRow → Except String Row) (cells : CsvRow)
    (coe : Bool) (st : StatsMap) (w : Writer) (e : String)
    (hnb : isBlankCsvRow cells = false) (hx : extract r cells = Except.error e) :
    processCsvRow (r :: rest) extract cells coe st w
      = ((statsUpdate st r.name (fun p => { p with skipped_rows := p.skipped_rows + 1 }), w),
         if coe then none else some e) := by
  unfold processCsvRow
  rw [hnb]
  simp only [Bool.false_eq_true, if_false]
  rw [hx]
  simp only [handle_row_error]

/-- Per-row trichotomy: one CSV row either reaches validation (bumping
`total_rows` and exactly one of `success_rows`/`failed_rows`), or raises
and is skipped (bumping only `skipped_rows`), or does not touch the
record's stats at all (blank row, no records, other record name). -/
theorem processCsvRow_trichotomy (recs : List CsvRecInfo)
    (extract : CsvRecInfo → CsvRow → Except String Row) (cells : CsvRow)
    (coe : Bool) (st : StatsMap) (w : Writer) (n : String) :
    (((processCsvRow recs extract cells coe st w).1.1 n).total_rows = (st n).total_rows + 1 ∧
     ((processCsvRow recs extract cells coe st w).1.1 n).success_rows
       + ((processCsvRow recs extract cells coe st w).1.1 n).failed_rows
       = (st n).success_rows + (st n).failed_rows + 1 ∧
     ((processCsvRow recs extract cells coe st w).1.1 n).skipped_rows = (st n).skipped_rows) ∨
    (((processCsvRow recs extract cells coe st w).1.1 n).skipped_rows = (st n).skipped_rows + 1 ∧
     ((processCsvRow recs extract cells coe st w).1.1 n).total_rows = (st n).total_rows ∧
     ((processCsvRow recs extract cells coe st w).1.1 n).success_rows
       + ((processCsvRow recs extract cells coe st w).1.1 n).failed_rows
       = (st n).success_rows + (st n).failed_rows) ∨
    (processCsvRow recs extract cells coe st w).1.1 n = st n := by
  cases hb : isBlankCsvRow cells with
  | true => right; right; rw [processCsvRow_blank recs extract cells coe st w hb]
  | false =>
    cases recs with
    | nil =>
      right; right
      unfold processCsvRow
      rw [hb]
      rfl
    | cons r rest =>
      cases hx : extract r cells with
      | ok row =>
        rw [processCsvRow_ok r rest extract cells coe st w row hb hx]
        by_cases hn : n = r.name
        · left
          subst hn
          obtain ⟨k1, k2, k3, k4⟩ := vawr_counters r.name row r.fieldDefs
            (statsUpdate st r.name (fun p => { p with total_rows := p.total_rows + 1 })) w r.name
          simp [statsUpdate] at k1 k2 k4
          exact ⟨k1, k4, k2⟩
        · right; right
          exact (vawr_other r.name row r.fieldDefs _ w n hn).trans (statsUpdate_ne st r.name _ n hn)
      | error e =>
        rw [processCsvRow_err r rest extract cells coe st w e hb hx]
        by_cases hn : n = r.name
        · right; left
          subst hn
          simp [statsUpdate]
        · right; right
          simp [statsUpdate, hn]

theorem runCsvRows_conserves (recs : List CsvRecInfo)
    (extract : CsvRecInfo → CsvRow → Except String Row) (coe : Bool) :
    ∀ (rows : List CsvRow) (st : StatsMap) (w : Writer),
      (∀ n, statsConserved (st n)) →
      ∀ n, statsConserved ((runCsvRows recs extract rows coe st w).1.1 n) := by
  intro rows
  induction rows with
  | nil => intro st w h n; exact h n
  | cons cells rest ih =>
    intro st w h n
    simp only [runCsvRows]
    rcases hpr : processCsvRow recs extract cells coe st w with ⟨⟨st1, w1⟩, err⟩
    have hnew : ∀ m, statsConserved (st1 m) := by
      intro m
      have ht := processCsvRow_trichotomy recs extract cells coe st w m
      rw [hpr] at ht
      have hm := h m
      unfold statsConserved at hm ⊢
      rcases ht with ⟨a1, a2, a3⟩ | ⟨b1, b2, b3⟩ | heq
      · simp only at a1 a2 a3; omega
      · simp only at b1 b2 b3; omega
      · simp only at heq; rw [show st1 m = st m from heq]; exact hm
    cases err with
    | none => exact ih st1 w1 hnew n
    | some e => exact hnew n

/-- C3: starting from any stats satisfying row-count conservation
(`total_rows = success_rows + failed_rows`, true of fresh stats), the CSV
row loop preserves it for every record name and however it terminates,
and each individual row moves the counters by exactly one of: a
validation outcome (`total` and one of `success`/`failed`), a skip
(`skipped` only - rows that never reached validation), or nothing -
so `skipped_rows` is disjoint from the other three counters. -/
theorem c3_row_count_conservation (recs : List CsvRecInfo)
    (extract : CsvRecInfo → CsvRow → Except String Row) (rows : List CsvRow)
    (coe : Bool) (st : StatsMap) (w : Writer)
    (hinv : ∀ n, statsConserved (st n)) :
    (∀ n, statsConserved ((runCsvRows recs extract rows coe st w).1.1 n)) ∧
    (∀ cells n,
      (((processCsvRow recs extract cells coe st w).1.1 n).total_rows = (st n).total_rows + 1 ∧
       ((processCsvRow recs extract cells coe st w).1.1 n).success_rows
         + ((processCsvRow recs extract cells coe st w).1.1 n).failed_rows
         = (st n).success_rows + (st n).failed_rows + 1 ∧
       ((processCsvRow recs extract cells coe st w).1.1 n).skipped_rows = (st n).skipped_rows) ∨
      (((processCsvRow recs extract cells coe st w).1.1 n).skipped_rows = (st n).skipped_rows + 1 ∧
       ((processCsvRow recs extract cells coe st w).1.1 n).total_rows = (st n).total_rows ∧
       ((processCsvRow recs extract cells coe st w).1.1 n).success_rows
         + ((processCsvRow recs extract cells coe st w).1.1 n).failed_rows
         = (st n).success_rows + (st n).failed_rows) ∨
      (processCsvRow recs extract cells coe st w).1.1 n = st n) :=
  ⟨runCsvRows_conserves recs extract coe rows st w hinv,
   fun cells n => processCsvRow_trichotomy recs extract cells coe st w n⟩

/-- Witness for C3: one record, one valid and one erroring row, from
fresh stats. -/
theorem c3_witness :
    (∀ n, statsConserved (zeroStats n)) ∧
    (∀ n, statsConserved
      ((runCsvRows [recR] mixedExtract [["good"], ["bad"]] true zeroStats {}).1.1 n)) := by
  have h := c3_row_count_conservation [recR] mixedExtract [["good"], ["bad"]] true zeroStats {}
    (fun _ => rfl)
  exact ⟨fun _ => rfl, h.1⟩

/-- C4 (counterexample): a non-blank row whose extraction raises under
`continueOnError = true` enters the pipeline but `total_rows` stays 0
(only `skipped_rows` is bumped) - the claim that `total_rows` is
incremented exactly once per row regardless of outcome fails for errored
rows. -/
theorem c4_counterexample :
    ((runCsvRows [recR] alwaysErrorExtract [["x"]] true zeroStats {}).1.1 "r").total_rows = 0 ∧
    ((runCsvRows [recR] alwaysErrorExtract [["x"]] true zeroStats {}).1.1 "r").skipped_rows = 1 := by
  exact ⟨by decide, by decide⟩

/-- C4 (amended): `total_rows` is incremented exactly once for every row
that completes extraction/casting/computing and reaches validation
(whatever the validation outcome); a row that raises beforehand is
counted in `skipped_rows` only, leaving `total_rows` unchanged. -/
theorem c4_amended_total_counts (r : CsvRecInfo) (rest : List CsvRecInfo)
    (extract : CsvRecInfo → CsvRow → Except String Row) (cells : CsvRow)
    (coe : Bool) (st : StatsMap) (w : Writer)
    (hnb : isBlankCsvRow cells = false) :
    (∀ row, extract r cells = Except.ok row →
       ((processCsvRow (r :: rest) extract cells coe st w).1.1 r.name).total_rows
         = (st r.name).total_rows + 1 ∧
       ((processCsvRow (r :: rest) extract cells coe st w).1.1 r.name).skipped_rows
         = (st r.name).skipped_rows) ∧
    (∀ e, extract r cells = Except.error e →
       (∀ n, ((processCsvRow (r :: rest) extract cells coe st w).1.1 n).total_rows
         = (st n).total_rows) ∧
       ((processCsvRow (r :: rest) extract cells coe st w).1.1 r.name).skipped_rows
         = (st r.name).skipped_rows + 1) := by
  constructor
  · intro row hx
    unfold processCsvRow
    simp only [hnb, Bool.false_eq_true, if_false, hx]
    obtain ⟨k1, k2, k3, k4⟩ := vawr_counters r.name row r.fieldDefs
      (statsUpdate st r.name (fun p => { p with total_rows := p.total_rows + 1 })) w r.name
    constructor
    · rw [k1, statsUpdate_self]
    · rw [k2, statsUpdate_self]
  · intro e hx
    unfold processCsvRow
    simp only [hnb, Bool.false_eq_true, if_false, hx]
    constructor
    · intro n
      by_cases hn : n = r.name <;> simp [handle_row_error, statsUpdate, hn]
    · simp [handle_row_error, statsUpdate]

/-- Witness for C4 (amended) at a concrete record, an accepted row and an
erroring row. -/
theorem c4_amended_witness :
    (((processCsvRow [recR] alwaysOkExtract ["x"] true zeroStats {}).1.1 "r").total_rows
      = (zeroStats "r").total_rows + 1) ∧
    (((processCsvRow [recR] alwaysErrorExtract ["x"] true zeroStats {}).1.1 "r").skipped_rows
      = (zeroStats "r").skipped_rows + 1) := by
  constructor
  · exact ((c4_amended_total_counts recR [] alwaysOkExtract ["x"] true zeroStats {}
      (by decide)).1 [] rfl).1
  · exact ((c4_amended_total_counts recR [] alwaysErrorExtract ["x"] true zeroStats {}
      (by decide)).2 "boom" rfl).2

/-! ## C5 (XML namespace failure routing) -/

/-- C5 (counterexample): with `continueOnError = true`, a field path using
an undefined namespace prefix while the record's `select` is fine makes
`parse_xml` report file SUCCESS `(True, None)`: the `XPathEvalError`
raised during field extraction is caught by the per-node `try` handler,
the row is skipped (`skipped_rows = 1`), `file_parse_failures` stays 0
and nothing is written - so it is a row-level skip, not the file-level
failure the claim asserts (and also not a per-field null). -/
theorem c5_counterexample :
    (parse_xml_model [] [] [badFieldRecord] {} true false true zeroStats {}).2
      = Except.ok (true, none) ∧
    ((parse_xml_model [] [] [badFieldRecord] {} true false true zeroStats {}).1.1 "r").skipped_rows
      = 1 ∧
    ((parse_xml_model [] [] [badFieldRecord] {} true false true zeroStats
        {}).1.1 "r").file_parse_failures = 0 ∧
    ((parse_xml_model [] [] [badFieldRecord] {} true false true zeroStats {}).1.1 "r").total_rows
      = 0 ∧
    (parse_xml_model [] [] [badFieldRecord] {} true false true zeroStats {}).1.2.accepted = [] ∧
    (parse_xml_model [] [] [badFieldRecord] {} true false true zeroStats {}).1.2.rejected = [] := by
  exact ⟨rfl, by decide, by decide, by decide, rfl, rfl⟩

/-- Helper: a record whose field list contains a non-computed field whose
path uses an unbound namespace name makes the row build raise. -/
theorem xmlBuildRow_err_of_unbound (bound : List String) (node : XNode) (sm : Bool) :
    ∀ (fields : List XField) (row0 : Row),
      (∃ fld ∈ fields, fld.type ≠ "computed" ∧
        ∃ p, fld.path = some p ∧ p.nsUsed.all (fun q => bound.contains q) = false) →
      ∃ e, fields.foldlM
        (fun row fld =>
          if fld.type = "computed" then Except.ok (rowSet row fld.name Value.null)
          else
            match fld.path with
            | none => Except.ok (rowSet row fld.name Value.null)
            | some p =>
              match xpathEval bound p node with
              | Except.error e => Except.error e
              | Except.ok nodes =>
                match nodeCast nodes fld.type sm with
                | Except.error e => Except.error e
                | Except.ok v => Except.ok (rowSet row fld.name v)) row0
        = Except.error e := by
  intro fields
  induction fields with
  | nil =>
    intro row0 h
    obtain ⟨fld, hmem, _⟩ := h
    exact absurd hmem (List.not_mem_nil fld)
  | cons hd tl ih =>
    intro row0 h
    rw [List.foldlM_cons]
    cases hstep : (if hd.type = "computed" then Except.ok (rowSet row0 hd.name Value.null)
      else
        match hd.path with
        | none => Except.ok (rowSet row0 hd.name Value.null)
        | some p =>
          match xpathEval bound p node with
          | Except.error e => Except.error e
          | Except.ok nodes =>
            match nodeCast nodes hd.type sm with
            | Except.error e => Except.error e
            | Except.ok v => Except.ok (rowSet row0 hd.name v)) with
    | error e => exact ⟨e, rfl⟩
    | ok row1 =>
      obtain ⟨fld, hmem, hnc, p, hp, hns⟩ := h
      rcases List.mem_cons.mp hmem with heq | hmem2
      · subst heq
        rw [if_neg hnc, hp] at hstep
        simp only [xpathEval] at hstep
        rw [hns] at hstep
        simp only [Bool.false_eq_true, if_false] at hstep
        exact Except.noConfusion hstep
      · have := ih row1 ⟨fld, hmem2, hnc, p, hp, hns⟩
        obtain ⟨e, he⟩ := this
        exact ⟨e, he⟩

/-- C5 (amended): an undefined namespace prefix in a record's `select` is
a file-level failure - reported `(False, msg)` under `ignoreBrokenFiles`,
re-raised otherwise; an undefined prefix in a field path raises inside
the per-node block, making the row build fail, which `handle_row_error`
turns into a skipped row when `continueOnError` is true and into a
propagating (file-level) error when it is false - in neither case is the
field stored as a per-field null or the row written. -/
theorem c5_amended (bound : List String) (cdefs : List (String × CompDef))
    (rec : XRecord) (rest : List XRecord) (root node : XNode)
    (coe ib sm : Bool) (st : StatsMap) (w : Writer) :
    (rec.select.nsUsed.all (fun q => bound.contains q) = false →
      (ib = true →
        (parse_xml_model bound cdefs (rec :: rest) root coe ib sm st w).2
          = Except.ok (false, some (pyExcMsg PyExc.xpathEvalError))) ∧
      (ib = false →
        (parse_xml_model bound cdefs (rec :: rest) root coe ib sm st w).2
          = Except.error (pyExcMsg PyExc.xpathEvalError))) ∧
    ((∃ fld ∈ rec.fields, fld.type ≠ "computed" ∧
        ∃ p, fld.path = some p ∧ p.nsUsed.all (fun q => bound.contains q) = false) →
      ∃ e, xmlBuildRow bound node rec.fields sm = Except.error e) ∧
    (∀ e2, xmlBuildRow bound node rec.fields sm = Except.error e2 →
      xmlProcessNode bound cdefs rec coe sm node st w
        = ((statsUpdate st rec.name (fun p => { p with skipped_rows := p.skipped_rows + 1 }), w),
           if coe then none else some (pyExcMsg e2))) := by
  refine ⟨?_, ?_, ?_⟩
  · intro hsel
    have hloop : xmlRecordLoop bound cdefs coe sm root (rec :: rest) st w
        = ((st, w), some (pyExcMsg PyExc.xpathEvalError)) := by
      unfold xmlRecordLoop
      unfold xpathEval
      rw [hsel]
      rfl
    constructor
    · intro hib
      unfold parse_xml_model
      rw [hloop]
      simp [handle_file_error, hib]
    · intro hib
      unfold parse_xml_model
      rw [hloop]
      simp [handle_file_error, hib]
  · intro h
    exact xmlBuildRow_err_of_unbound bound node sm rec.fields [] h
  · intro e2 he2
    unfold xmlProcessNode
    rw [he2]
    simp only [handle_row_error]

/-- Witness for C5 (amended), exercising all three parts on the concrete
fixture records. -/
theorem c5_amended_witness :
    (parse_xml_model [] [] [badSelectRecord] {} true true true zeroStats {}).2
      = Except.ok (false, some (pyExcMsg PyExc.xpathEvalError)) ∧
    (∃ e, xmlBuildRow [] {} badSelectRecord.fields true = Except.error e) ∧
    xmlProcessNode [] [] badSelectRecord true true {} zeroStats {}
      = ((statsUpdate zeroStats "r" (fun p => { p with skipped_rows := p.skipped_rows + 1 }), {}),
         none) := by
  have h := c5_amended [] [] badSelectRecord [] {} {} true true true zeroStats {}
  have hmem : ∃ fld ∈ badSelectRecord.fields, fld.type ≠ "computed" ∧
      ∃ p, fld.path = some p ∧ (p.nsUsed.all fun q => List.contains [] q) = false :=
    ⟨{ name := "f", path := some undefNsExpr }, by simp [badSelectRecord], by decide,
      undefNsExpr, rfl, rfl⟩
  refine ⟨(h.1 rfl).1 rfl, h.2.1 hmem, ?_⟩
  obtain ⟨e, he⟩ := h.2.1 hmem
  have hrw := h.2.2 e he
  rw [hrw]
  have hee : e = PyExc.xpathEvalError := by
    have hx : xmlBuildRow [] ({} : XNode) badSelectRecord.fields true
        = Except.error PyExc.xpathEvalError := rfl
    rw [hx] at he
    exact (Except.error.inj he).symm
  rw [hee]
  rfl

/-! ## C6 (formula evaluator) -/

theorem leBytes_length (c : Nat) : ∀ n, (leBytes n c).length = c := by
  induction c with
  | zero => intro n; rfl
  | succ k ih =>
    intro n
    show (n % 256 :: leBytes (n / 256) k).length = k + 1
    simp [ih]

theorem md5Bytes_length (msg : List Nat) : (md5Bytes msg).length = 16 := by
  unfold md5Bytes
  simp [leBytes_length]

theorem byteHexFold_length (bs : List Nat) :
    (bs.foldr (fun b acc => byteHex b ++ acc) []).length = 2 * bs.length := by
  induction bs with
  | nil => rfl
  | cons b rest ih =>
    simp only [List.foldr_cons, List.length_append, ih, List.length_cons]
    have hb : (byteHex b).length = 2 := rfl
    rw [hb]
    omega

theorem md5HexOfBytes_length (msg : List Nat) : (md5HexOfBytes msg).length = 32 := by
  unfold md5HexOfBytes
  show (md5Bytes msg |>.foldr (fun b acc => byteHex b ++ acc) []).length = 32
  rw [byteHexFold_length, md5Bytes_length]

theorem md5Hex_length (s : String) : (md5Hex s).length = 32 :=
  md5HexOfBytes_length _

set_option maxRecDepth 100000 in
/-- Test vectors anchoring the `md5Hex` model to RFC 1321 / `hashlib`. -/
theorem md5Hex_test_vectors :
    md5Hex "" = "d41d8cd98f00b204e9800998ecf8427e" ∧
    md5Hex "abc" = "900150983cd24fb0d6963f7d28e17f72" := by
  exact ⟨by decide, by decide⟩

set_option maxRecDepth 100000 in
/-- C6: `format_formula` returns the MD5 hex digest (32 characters) of
the interpolated inner text when the trimmed formula entirely matches
`hash_md5(<inner>)`, and the interpolated formula otherwise (where
interpolation replaces every placeholder token by `str(row[name])`, with
Decimals in plain fixed notation and missing/null values empty); in
particular `hash_md5({a}{b})` over `{a: "x", b: "y"}` is the MD5 digest
of the literal string `"xy"`. -/
theorem c6_format_formula (formula : String) (row : Row) :
    (∀ inner, hashInner formula = some inner →
      format_formula formula row = md5Hex (interpolate row inner) ∧
      (format_formula formula row).length = 32) ∧
    (hashInner formula = none →
      format_formula formula row = if formula = "" then "" else interpolate row formula) ∧
    format_formula "hash_md5({a}{b})" [("a", Value.str "x"), ("b", Value.str "y")]
      = md5Hex "xy" := by
  refine ⟨?_, ?_, ?_⟩
  · intro inner hi
    have hne : formula ≠ "" := by
      intro hq
      have h0 : hashInner "" = none := by decide
      rw [hq, h0] at hi
      exact Option.noConfusion hi
    unfold format_formula
    rw [if_neg hne, hi]
    constructor
    · rfl
    · show (md5Hex (interpolate row inner)).length = 32
      exact md5Hex_length _
  · intro h
    unfold format_formula
    by_cases hq : formula = ""
    · rw [if_pos hq, if_pos hq]
    · rw [if_neg hq, if_neg hq, h]
  · decide

/-- Witness for C6 at scenario D's formula and row. -/
theorem c6_witness :
    hashInner "hash_md5({a}{b})" = some "{a}{b}" ∧
    format_formula "hash_md5({a}{b})" [("a", Value.str "x"), ("b", Value.str "y")]
      = md5Hex (interpolate [("a", Value.str "x"), ("b", Value.str "y")] "{a}{b}") ∧
    (format_formula "hash_md5({a}{b})" [("a", Value.str "x"), ("b", Value.str "y")]).length
      = 32 := by
  have h := (c6_format_formula "hash_md5({a}{b})" [("a", Value.str "x"), ("b", Value.str "y")]).1
    "{a}{b}" (by decide)
  exact ⟨by decide, h.1, h.2⟩

/-! ## C10 (JSON path extraction) -/

theorem pyListGet_ok (xs : List Json) (i : Nat) (h : i < xs.length) :
    ∃ v, pyListGet xs i = Except.ok v := by
  unfold pyListGet
  cases hx : xs.get? i with
  | some v => exact ⟨v, rfl⟩
  | none =>
    exfalso
    rw [List.get?_eq_none] at hx
    omega

theorem jsonIndexStep_ok (cur : Json) (s : String) :
    ∃ v, jsonIndexStep cur s = Except.ok v := by
  unfold jsonIndexStep
  cases cur with
  | arr xs =>
    cases hp : pyIntParse s with
    | none => exact ⟨_, rfl⟩
    | some i =>
      show ∃ v, (if i < 0 then Except.ok Json.null
            else if i.toNat < xs.length then pyListGet xs i.toNat else Except.ok Json.null)
          = Except.ok v
      by_cases h1 : i < 0
      · rw [if_pos h1]; exact ⟨_, rfl⟩
      · rw [if_neg h1]
        by_cases h2 : i.toNat < xs.length
        · rw [if_pos h2]; exact pyListGet_ok xs i.toNat h2
        · rw [if_neg h2]; exact ⟨_, rfl⟩
  | null => exact ⟨_, rfl⟩
  | boolv b => exact ⟨_, rfl⟩
  | strv t => exact ⟨_, rfl⟩
  | numv t => exact ⟨_, rfl⟩
  | obj fs => exact ⟨_, rfl⟩

theorem jsonStep_ok (current : Json) (part : String) :
    ∃ v, jsonStep current part = Except.ok v := by
  unfold jsonStep
  by_cases hbr : part.data.contains '[' ∧ part.data.getLast? = some ']'
  · rw [if_pos hbr]
    show ∃ v,
      (match jsonKeyStep current (part.data.takeWhile (fun c => c ≠ '[')) with
       | none => Except.ok Json.null
       | some cur => jsonIndexStep cur
           (String.mk ((part.data.drop
             ((part.data.takeWhile (fun c => c ≠ '[')).length + 1)).dropLast)))
        = Except.ok v
    cases hks : jsonKeyStep current (part.data.takeWhile (fun c => c ≠ '[')) with
    | none => exact ⟨_, rfl⟩
    | some cur => exact jsonIndexStep_ok cur _
  · rw [if_neg hbr]
    cases current with
    | obj fs => exact ⟨_, rfl⟩
    | arr xs => exact jsonIndexStep_ok (Json.arr xs) part
    | null => exact ⟨_, rfl⟩
    | boolv b => exact ⟨_, rfl⟩
    | strv t => exact ⟨_, rfl⟩
    | numv t => exact ⟨_, rfl⟩

theorem jsonGo_ok (parts : List String) : ∀ current, ∃ v, jsonGo current parts = Except.ok v := by
  induction parts with
  | nil => intro current; exact ⟨current, rfl⟩
  | cons part rest ih =>
    intro current
    obtain ⟨v, hv⟩ := jsonStep_ok current part
    unfold jsonGo
    rw [hv]
    cases v with
    | null => exact ⟨_, rfl⟩
    | boolv b => exact ih _
    | strv t => exact ih _
    | numv t => exact ih _
    | arr xs => exact ih _
    | obj fs => exact ih _

theorem extract_json_path_ok (data : Json) (path : String) :
    ∃ v, extract_json_path data path = Except.ok v := by
  unfold extract_json_path
  by_cases hp : path = ""
  · rw [if_pos hp]; exact ⟨data, rfl⟩
  · rw [if_neg hp]
    cases data with
    | null => exact ⟨_, rfl⟩
    | boolv b => exact ⟨_, rfl⟩
    | strv t => exact ⟨_, rfl⟩
    | numv t => exact ⟨_, rfl⟩
    | arr xs =>
      show ∃ v, (match jsonGo (Json.arr xs) (path.splitOn ".") with
        | Except.ok v => Except.ok v
        | Except.error e =>
          if caughtByJsonPath e then Except.ok Json.null else Except.error e) = Except.ok v
      obtain ⟨v, hv⟩ := jsonGo_ok (path.splitOn ".") (Json.arr xs)
      rw [hv]
      exact ⟨v, rfl⟩
    | obj fs =>
      show ∃ v, (match jsonGo (Json.obj fs) (path.splitOn ".") with
        | Except.ok v => Except.ok v
        | Except.error e =>
          if caughtByJsonPath e then Except.ok Json.null else Except.error e) = Except.ok v
      obtain ⟨v, hv⟩ := jsonGo_ok (path.splitOn ".") (Json.obj fs)
      rw [hv]
      exact ⟨v, rfl⟩

theorem jsonGo_missing_key (fields : List (String × Json)) (part : String)
    (rest : List String) (hc : part.data.contains '[' = false)
    (hobj : objGet fields part = Json.null) :
    jsonGo (Json.obj fields) (part :: rest) = Except.ok Json.null := by
  have hcond : ¬(part.data.contains '[' = true ∧ part.data.getLast? = some ']') := by
    intro hq
    rw [hc] at hq
    exact Bool.noConfusion hq.1
  have hstep : jsonStep (Json.obj fields) part = Except.ok (objGet fields part) := by
    unfold jsonStep
    rw [if_neg hcond]
  unfold jsonGo
  rw [hstep, hobj]

theorem jsonStep_arr_plain (xs : List Json) (part : String)
    (hc : part.data.contains '[' = false) :
    jsonStep (Json.arr xs) part = jsonIndexStep (Json.arr xs) part := by
  have hcond : ¬(part.data.contains '[' = true ∧ part.data.getLast? = some ']') := by
    intro hq
    rw [hc] at hq
    exact Bool.noConfusion hq.1
  unfold jsonStep
  rw [if_neg hcond]

theorem jsonGo_nonint_index (xs : List Json) (part : String) (rest : List String)
    (hc : part.data.contains '[' = false) (hp : pyIntParse part = none) :
    jsonGo (Json.arr xs) (part :: rest) = Except.ok Json.null := by
  have hv : jsonIndexStep (Json.arr xs) part = Except.ok Json.null := by
    unfold jsonIndexStep
    rw [hp]
  unfold jsonGo
  rw [jsonStep_arr_plain xs part hc, hv]

theorem jsonGo_neg_index (xs : List Json) (part : String) (rest : List String) (i : Int)
    (hc : part.data.contains '[' = false) (hp : pyIntParse part = some i) (hi : i < 0) :
    jsonGo (Json.arr xs) (part :: rest) = Except.ok Json.null := by
  have hv : jsonIndexStep (Json.arr xs) part = Except.ok Json.null := by
    unfold jsonIndexStep
    rw [hp]
    show (if i < 0 then Except.ok Json.null
          else if i.toNat < xs.length then pyListGet xs i.toNat else Except.ok Json.null)
        = Except.ok Json.null
    rw [if_pos hi]
  unfold jsonGo
  rw [jsonStep_arr_plain xs part hc, hv]

theorem jsonGo_oob_index (xs : List Json) (part : String) (rest : List String) (i : Int)
    (hc : part.data.contains '[' = false) (hp : pyIntParse part = some i)
    (hi : 0 ≤ i) (hlen : xs.length ≤ i.toNat) :
    jsonGo (Json.arr xs) (part :: rest) = Except.ok Json.null := by
  have hv : jsonIndexStep (Json.arr xs) part = Except.ok Json.null := by
    unfold jsonIndexStep
    rw [hp]
    show (if i < 0 then Except.ok Json.null
          else if i.toNat < xs.length then pyListGet xs i.toNat else Except.ok Json.null)
        = Except.ok Json.null
    rw [if_neg (by omega), if_neg (by omega)]
  unfold jsonGo
  rw [jsonStep_arr_plain xs part hc, hv]

/-- C10: `extract_json_path` is total - for every datum and path it
returns a value, never an exception; the empty path returns the datum
unchanged; a non-container datum with a non-empty path gives null; and
the traversal yields null on a missing key, a non-integer index segment,
a negative index, and an out-of-range index. -/
theorem c10_extract_json_path_total (data : Json) (path : String) :
    (∃ v, extract_json_path data path = Except.ok v) ∧
    (path = "" → extract_json_path data path = Except.ok data) ∧
    (Json.isContainer data = false → path ≠ "" →
      extract_json_path data path = Except.ok Json.null) ∧
    (∀ fields part rest, part.data.contains '[' = false →
      objGet fields part = Json.null →
      jsonGo (Json.obj fields) (part :: rest) = Except.ok Json.null) ∧
    (∀ xs part rest, part.data.contains '[' = false →
      pyIntParse part = none →
      jsonGo (Json.arr xs) (part :: rest) = Except.ok Json.null) ∧
    (∀ xs part rest i, part.data.contains '[' = false →
      pyIntParse part = some i → i < 0 →
      jsonGo (Json.arr xs) (part :: rest) = Except.ok Json.null) ∧
    (∀ xs part rest i, part.data.contains '[' = false →
      pyIntParse part = some i → 0 ≤ i → xs.length ≤ i.toNat →
      jsonGo (Json.arr xs) (part :: rest) = Except.ok Json.null) := by
  refine ⟨extract_json_path_ok data path, ?_, ?_,
    fun fields part rest hc hobj => jsonGo_missing_key fields part rest hc hobj,
    fun xs part rest hc hp => jsonGo_nonint_index xs part rest hc hp,
    fun xs part rest i hc hp hi => jsonGo_neg_index xs part rest i hc hp hi,
    fun xs part rest i hc hp hi hlen => jsonGo_oob_index xs part rest i hc hp hi hlen⟩
  · intro hp
    unfold extract_json_path
    rw [if_pos hp]
  · intro hnc hp
    unfold extract_json_path
    rw [if_neg hp]
    cases data with
    | null => rfl
    | boolv b => rfl
    | strv t => rfl
    | numv t => rfl
    | arr xs => exact absurd hnc (by simp [Json.isContainer])
    | obj fs => exact absurd hnc (by simp [Json.isContainer])

/-- Witness for C10 on a concrete document. -/
theorem c10_witness :
    extract_json_path (Json.strv "x") "a.b" = Except.ok Json.null ∧
    extract_json_path (Json.obj [("a", Json.numv "1")]) "" =
      Except.ok (Json.obj [("a", Json.numv "1")]) ∧
    jsonGo (Json.obj [("a", Json.numv "1")]) ["missing"] = Except.ok Json.null ∧
    jsonGo (Json.arr [Json.numv "1"]) ["-1"] = Except.ok Json.null := by
  refine ⟨(c10_extract_json_path_total (Json.strv "x") "a.b").2.2.1 rfl (by decide), ?_, ?_, ?_⟩
  · exact (c10_extract_json_path_total (Json.obj [("a", Json.numv "1")]) "").2.1 rfl
  · exact (c10_extract_json_path_total Json.null "x").2.2.2.1
      [("a", Json.numv "1")] "missing" [] (by decide) rfl
  · exact (c10_extract_json_path_total Json.null "x").2.2.2.2.2.1
      [Json.numv "1"] "-1" [] (-1) (by decide) (by decide) (by decide)

end MFP
